import Mathlib

/-!
# scaleway-operator: condition store, status classification, reconcile pass, drivers

A shallow embedding of `updateCondition`, `updateStatus` and `Reconcile` from
`controllers/scaleway_controller.go`, of the status types and helpers of
`apis/meta/v1alpha1`, of the `Delete`, `Ensure` and validation methods of the
drivers in `pkg/manager/rdb`, of `pkg/utils/labels.go` and of
`webhooks/utils.go`, and theorems about them.

Modelling conventions
* `metav1.Time` is an instant on a linear time line: an `Int`.
* `time.Duration` is a Go `int64` (nanoseconds): an `Int`, and every product
  computed by the code is wrapped to 64 bits by `wrapInt64`.
* `corev1.ConditionStatus` and `ConditionType` are Go string types: `String`.
* A Go `error` is observed by the code through its dynamic type (the type
  switch) and its `Error()` text only: `Error` carries exactly these two.
* The package variable `RequeueDuration` is passed explicitly.
* Functions that mutate `*Status` return the new `Status`.
* Collaborators (object store, driver, RDB API, library functions) are
  fields of an environment; a pass of `Reconcile` returns the calls it made.
-/

namespace Scaleway

/-! ## apis/meta/v1alpha1/status_types.go -/

/-- ConditionType is a Go string type. -/
abbrev ConditionType := String

/-- Reconciled indicates whether the resource was successfully reconciled. -/
def Reconciled : ConditionType := "Reconciled"

/-- Ready indicates whether the resource is considered ready. -/
def Ready : ConditionType := "Ready"

/-- The Go type `corev1.ConditionStatus` is a string type. -/
abbrev ConditionStatus := String

def ConditionTrue : ConditionStatus := "True"
def ConditionFalse : ConditionStatus := "False"
def ConditionUnknown : ConditionStatus := "Unknown"

/-- An instant (`metav1.Time`). -/
abbrev Time := Int

/-- Condition contains details for the current condition of a resource. -/
structure Condition where
  Type_ : ConditionType
  Status : ConditionStatus
  LastProbeTime : Time
  LastTransitionTime : Time
  Reason : String
  Message : String
  deriving DecidableEq, Repr

/-- Status defines the observed state of a Scaleway resource. -/
structure Status where
  Conditions : List Condition
  deriving DecidableEq, Repr

/-! ## controllers/scaleway_controller.go: constants -/

def messageStillReconciling : String := "Still reconciling"

def reasonReconciling : String := "Reconciling"
def reasonTransientState : String := "TransientState"
def reasonResourceNotFound : String := "ResourceNotFound"
def reasonPermissionsDenied : String := "PermissionsDenied"
def reasonOutOfStock : String := "OutOfStock"
def reasonQuotasExceeded : String := "QuotasExceeded"
def reasonResourceLocked : String := "ResourceLocked"
def reasonInvalidArguments : String := "InvalidArguments"

/-- A `time.Duration`: a signed 64-bit count of nanoseconds. -/
abbrev Duration := Int

/-- Two's-complement wrap of an integer to the `int64` range. -/
def wrapInt64 (x : Int) : Int :=
  (x + 9223372036854775808) % 18446744073709551616 - 9223372036854775808

/-- The dynamic type of an error value, as far as the type switch of
`updateStatus` distinguishes it: the seven `*scw.…Error` types, and
everything else. -/
inductive ErrorKind where
  | ResourceNotFoundError
  | InvalidArgumentsError
  | PermissionsDeniedError
  | OutOfStockError
  | QuotasExceededError
  | ResourceLockedError
  | TransientStateError
  | Other
  deriving DecidableEq, Repr

/-- A non-nil Go `error`: its dynamic type and the text `Error()` returns. -/
structure Error where
  kind : ErrorKind
  text : String
  deriving DecidableEq, Repr

/-! ## controllers/scaleway_controller.go: updateCondition -/

/-- The in-place update of the matching condition `cond` (lines 221-228):
probe time, message and reason are overwritten, the transition time only when
the status differs, then the status. -/
def Condition.refresh (cond condition : Condition) (now : Time) : Condition :=
  { Type_ := cond.Type_
    LastProbeTime := now
    Message := condition.Message
    Reason := condition.Reason
    LastTransitionTime :=
      if cond.Status ≠ condition.Status then now else cond.LastTransitionTime
    Status := condition.Status }

/-- The condition appended when no condition of the type exists
(lines 232-239). -/
def Condition.fresh (condition : Condition) (now : Time) : Condition :=
  { Type_ := condition.Type_
    LastProbeTime := now
    LastTransitionTime := now
    Message := condition.Message
    Reason := condition.Reason
    Status := condition.Status }

/-- The loop of `updateCondition` over `status.Conditions`: the first
condition whose type matches is updated in place and the loop returns;
when the loop ends without a match the new condition is appended. -/
def updateConditions : List Condition → Condition → Time → List Condition
  | [], condition, now => [condition.fresh now]
  | c :: cs, condition, now =>
    if c.Type_ = condition.Type_ then
      c.refresh condition now :: cs
    else
      c :: updateConditions cs condition now

/-- The function `updateCondition(status, condition, now)`. -/
def updateCondition (status : Status) (condition : Condition) (now : Time) : Status :=
  { Conditions := updateConditions status.Conditions condition now }

/-! ## controllers/scaleway_controller.go: updateStatus -/

/-- The function `updateStatus(status, now, ensureErr, reconciled)`, with the
package variable `RequeueDuration` as first argument. Returns the new status,
the requeue delay and the residual error. -/
def updateStatus (RequeueDuration : Duration) (status : Status) (now : Time)
    (ensureErr : Option Error) (reconciled : Bool) : Status × Duration × Option Error :=
  match ensureErr with
  | some e =>
    let message := e.text
    let reconcileStatus := ConditionFalse
    let (reason, requeueAfter, residual) : String × Duration × Option Error :=
      match e.kind with
      | .ResourceNotFoundError => (reasonResourceNotFound, 0, none)
      | .InvalidArgumentsError => (reasonInvalidArguments, 0, none)
      | .PermissionsDeniedError =>
        (reasonPermissionsDenied, wrapInt64 (RequeueDuration * 10), none)
      | .OutOfStockError => (reasonOutOfStock, wrapInt64 (RequeueDuration * 4), none)
      | .QuotasExceededError => (reasonQuotasExceeded, wrapInt64 (RequeueDuration * 2), none)
      | .ResourceLockedError => (reasonResourceLocked, wrapInt64 (RequeueDuration * 10), none)
      | .TransientStateError => (reasonTransientState, RequeueDuration, none)
      | .Other => ("", 0, some e)
    (updateCondition status
      { Message := message, Reason := reason, Status := reconcileStatus, Type_ := Reconciled,
        LastProbeTime := 0, LastTransitionTime := 0 } now,
     requeueAfter, residual)
  | none =>
    if !reconciled then
      (updateCondition status
        { Message := messageStillReconciling, Reason := reasonReconciling,
          Status := ConditionFalse, Type_ := Reconciled,
          LastProbeTime := 0, LastTransitionTime := 0 } now,
       RequeueDuration, none)
    else
      (updateCondition status
        { Message := "", Reason := "", Status := ConditionTrue, Type_ := Reconciled,
          LastProbeTime := 0, LastTransitionTime := 0 } now,
       0, none)

/-! ## Specification vocabulary -/

/-- Lookup of a condition by type: the first condition of that type, which is
the one the scan of `updateCondition` reaches. -/
def Status.getCondition (s : Status) (t : ConditionType) : Option Condition :=
  s.Conditions.find? (fun c => c.Type_ == t)

/-- The empty condition store. -/
def Status.empty : Status := { Conditions := [] }

/-- The Reconciled condition (looked up by type) exists and has the given
status, reason and message. -/
def ReconciledIs (s : Status) (st : ConditionStatus) (reason message : String) : Prop :=
  ∃ c, s.getCondition Reconciled = some c ∧
    c.Status = st ∧ c.Reason = reason ∧ c.Message = message

/-- The invariant of the condition store: at most one condition per type,
that is, no type occurs twice in the list of the conditions' types. -/
def Status.atMostOnePerType (s : Status) : Prop :=
  (s.Conditions.map (fun c => c.Type_)).Nodup

instance (s : Status) : Decidable s.atMostOnePerType :=
  inferInstanceAs (Decidable (s.Conditions.map (fun c : Condition => c.Type_)).Nodup)

/-- One call on the condition store: updateCondition or updateStatus, with
the arguments of the call. -/
inductive StoreOp where
  | callCondition (c : Condition) (now : Time)
  | callStatus (RequeueDuration : Duration) (now : Time) (ensureErr : Option Error)
      (reconciled : Bool)
  deriving Repr

/-- The store after one call. -/
def StoreOp.apply (op : StoreOp) (s : Status) : Status :=
  match op with
  | .callCondition c now => updateCondition s c now
  | .callStatus d now ensureErr reconciled => (updateStatus d s now ensureErr reconciled).1

/-- The store after a sequence of calls, first call first. -/
def runOps (ops : List StoreOp) (s : Status) : Status :=
  ops.foldl (fun acc op => op.apply acc) s

/-! ## controllers/scaleway_controller.go: Reconcile

One pass of `Reconcile` is modelled against an environment `Env` that fixes
what every collaborator returns: the object store (`Get`, `Update`,
`Status().Update`), the driver (`Ensure`, `Delete`, `GetOwners`) and the
library functions whose code is outside the repository. Every collaborator
that can be called more than once receives the calls made so far, so its
answers may depend on the history of the pass. The pass returns, besides the
result and the error of `Reconcile`, the calls it made, in order. -/

def finalizerName : String := "scaleway.com/finalizer"

def ignoreAnnotation : String := "scaleway.com/ignore"

/-- The managed object (`runtime.Object`) as the reconciler sees it: the
metadata it reads and writes, the Scaleway status, and every other field
(spec, owner references, kind-specific status) as one value. -/
structure Object where
  Annotations : List (String × String)
  DeletionTimestamp : Option Time
  Finalizers : List String
  Status : Status
  Rest : String
  deriving DecidableEq, Repr

/-- The test `objMeta.GetDeletionTimestamp().IsZero()`: a nil pointer or the
zero time, which is the origin of the time line. -/
def Object.deletionTimestampIsZero (o : Object) : Bool :=
  match o.DeletionTimestamp with
  | none => true
  | some t => t == 0

/-- The library function `controllerutil.ContainsFinalizer`. -/
def ContainsFinalizer (o : Object) (finalizer : String) : Bool :=
  o.Finalizers.contains finalizer

/-- The library function `controllerutil.AddFinalizer`: appends the finalizer
unless it is present. -/
def AddFinalizer (o : Object) (finalizer : String) : Object :=
  if o.Finalizers.contains finalizer then o
  else { o with Finalizers := o.Finalizers ++ [finalizer] }

/-- The library function `controllerutil.RemoveFinalizer`: drops every
occurrence of the finalizer. -/
def RemoveFinalizer (o : Object) (finalizer : String) : Object :=
  { o with Finalizers := o.Finalizers.filter (fun f => f != finalizer) }

/-- Owner represent an owner of a Scaleway resource: the key under which the
owner object is fetched. -/
structure Owner where
  Key : String
  deriving DecidableEq, Repr

/-- A call made by the pass on a collaborator, with its arguments. -/
inductive Call where
  | Get
  | Event (eventtype reason message : String)
  | AddFinalizer
  | RemoveFinalizer
  | Update (obj : Object)
  | StatusUpdate (obj : Object)
  | Delete (obj : Object)
  | Ensure (obj : Object)
  | GetOwners (obj : Object)
  | GetOwner (owner : Owner)
  | SetControllerReference (ownerObj obj : Object)
  deriving DecidableEq, Repr

/-- The call is the driver's Ensure. -/
def Call.isEnsure : Call → Bool
  | .Ensure _ => true
  | _ => false

/-- The call is the driver's Delete. -/
def Call.isDelete : Call → Bool
  | .Delete _ => true
  | _ => false

/-- The call is a driver operation: Ensure, Delete or GetOwners. -/
def Call.isDriver : Call → Bool
  | .Ensure _ => true
  | .Delete _ => true
  | .GetOwners _ => true
  | _ => false

/-- The call is a write of the status subresource. -/
def Call.isStatusUpdate : Call → Bool
  | .StatusUpdate _ => true
  | _ => false

/-- The call is a write to the object store (object or status). -/
def Call.isWrite : Call → Bool
  | .Update _ => true
  | .StatusUpdate _ => true
  | _ => false

/-- The call belongs to the loop of setOwners: fetching an owner, setting the
controller reference, persisting the object. -/
def Call.isOwnerStep : Call → Bool
  | .GetOwner _ => true
  | .SetControllerReference _ _ => true
  | .Update _ => true
  | _ => false

/-- The call is one of those a pass makes before it reaches Ensure: the
fetch, adding the finalizer, persisting the object, GetOwners and the steps of
the owner loop. -/
def Call.isPrelude : Call → Bool
  | .Get => true
  | .AddFinalizer => true
  | .Update _ => true
  | .GetOwners _ => true
  | .GetOwner _ => true
  | .SetControllerReference _ _ => true
  | _ => false

/-- What the collaborators of one pass return. Calls that change the
in-memory object return the object as they leave it. -/
structure Env where
  RequeueDuration : Duration
  Now : Time
  ToLower : String → String
  IsNotFound : Error → Bool
  Accessor : Object → Option Error
  Get : Except Error Object
  Update : List Call → Object → Object × Option Error
  StatusUpdate : List Call → Object → Object × Option Error
  Delete : List Call → Object → Object × Bool × Option Error
  Ensure : List Call → Object → Object × Bool × Option Error
  GetOwners : List Call → Object → List Owner × Option Error
  GetOwner : List Call → Owner → Except Error Object
  SetControllerReference : Object → Object → Object × Option Error

/-- What one pass returns (`ctrl.Result.RequeueAfter` and the error), and the
calls it made. -/
structure Outcome where
  RequeueAfter : Duration
  err : Option Error
  trace : List Call
  deriving DecidableEq, Repr

/-- The loop of `setOwners` (lines 137-154) over the owners still to try:
an owner that cannot be fetched or accessed is skipped, a failure to set the
reference or to persist continues with the next owner, a success breaks. -/
def setOwnersLoop (env : Env) : List Owner → Object → List Call → Object × List Call
  | [], obj, tr => (obj, tr)
  | owner :: rest, obj, tr =>
    let tr1 := tr ++ [Call.GetOwner owner]
    match env.GetOwner tr owner with
    | .error _ => setOwnersLoop env rest obj tr1
    | .ok ownerObj =>
      match env.Accessor ownerObj with
      | some _ => setOwnersLoop env rest obj tr1
      | none =>
        let tr2 := tr1 ++ [Call.SetControllerReference ownerObj obj]
        match (env.SetControllerReference ownerObj obj).2 with
        | some _ => setOwnersLoop env rest (env.SetControllerReference ownerObj obj).1 tr2
        | none =>
          let obj1 := (env.SetControllerReference ownerObj obj).1
          let tr3 := tr2 ++ [Call.Update obj1]
          match (env.Update tr2 obj1).2 with
          | some _ => setOwnersLoop env rest (env.Update tr2 obj1).1 tr3
          | none => ((env.Update tr2 obj1).1, tr3)

/-- The method `setOwners` (lines 130-157): the error of GetOwners is
returned, every other failure is swallowed. -/
def setOwners (env : Env) (obj : Object) (tr : List Call) :
    Option Error × Object × List Call :=
  match (env.GetOwners tr obj).2 with
  | some err => (some err, obj, tr ++ [Call.GetOwners obj])
  | none =>
    let r := setOwnersLoop env (env.GetOwners tr obj).1 obj (tr ++ [Call.GetOwners obj])
    (none, r.1, r.2)

/-- Lines 111-127 of `Reconcile`: Ensure, status classification, status
write. -/
def ensureAndPersist (env : Env) (obj : Object) (tr : List Call) : Outcome :=
  let ensured := (env.Ensure tr obj).2.1
  let err := (env.Ensure tr obj).2.2
  let obj1 := (env.Ensure tr obj).1
  let tr1 := tr ++ [Call.Ensure obj]
  let r := updateStatus env.RequeueDuration obj1.Status env.Now err ensured
  let obj2 : Object := { obj1 with Status := r.1 }
  let tr2 := tr1 ++ [Call.StatusUpdate obj2]
  match (env.StatusUpdate tr1 obj2).2 with
  | some err => { RequeueAfter := 0, err := some err, trace := tr2 }
  | none => { RequeueAfter := r.2.1, err := r.2.2, trace := tr2 }

/-- Lines 106-127 of `Reconcile`: owner linking, then Ensure and the status
write. -/
def reconcileEnsure (env : Env) (obj : Object) (tr : List Call) : Outcome :=
  match (setOwners env obj tr).1 with
  | some err => { RequeueAfter := 0, err := some err, trace := (setOwners env obj tr).2.2 }
  | none => ensureAndPersist env (setOwners env obj tr).2.1 (setOwners env obj tr).2.2

/-- Lines 79-104 of `Reconcile`, followed by lines 106-127 when the pass
goes on: the finalizer lifecycle. -/
def reconcileActive (env : Env) (obj : Object) (tr : List Call) : Outcome :=
  if obj.deletionTimestampIsZero then
    if !ContainsFinalizer obj finalizerName then
      let obj1 := AddFinalizer obj finalizerName
      let tr1 := tr ++ [Call.AddFinalizer]
      match (env.Update tr1 obj1).2 with
      | some err => { RequeueAfter := 0, err := some err, trace := tr1 ++ [Call.Update obj1] }
      | none => reconcileEnsure env (env.Update tr1 obj1).1 (tr1 ++ [Call.Update obj1])
    else reconcileEnsure env obj tr
  else
    if ContainsFinalizer obj finalizerName then
      let tr1 := tr ++ [Call.Delete obj]
      match (env.Delete tr obj).2.2 with
      | some err => { RequeueAfter := 0, err := some err, trace := tr1 }
      | none =>
        let obj1 := (env.Delete tr obj).1
        if (env.Delete tr obj).2.1 then
          let tr2 := tr1 ++ [Call.Event "Normal" "Deleted" "Successfully deleted",
                             Call.RemoveFinalizer]
          let obj2 := RemoveFinalizer obj1 finalizerName
          { RequeueAfter := 0, err := (env.Update tr2 obj2).2, trace := tr2 ++ [Call.Update obj2] }
        else
          { RequeueAfter := env.RequeueDuration, err := (env.StatusUpdate tr1 obj1).2,
            trace := tr1 ++ [Call.StatusUpdate obj1] }
    else { RequeueAfter := 0, err := none, trace := tr }

/-- The test of lines 69-70: the ignore annotation is present and its
lower-cased value is "true". -/
def isIgnored (env : Env) (obj : Object) : Bool :=
  match obj.Annotations.lookup ignoreAnnotation with
  | some ignore => env.ToLower ignore == "true"
  | none => false

/-- Lines 71-75 of `Reconcile`: the pass for an ignored object. -/
def reconcileIgnored (env : Env) (obj : Object) (tr : List Call) : Outcome :=
  let obj1 := if !obj.deletionTimestampIsZero then RemoveFinalizer obj finalizerName else obj
  let tr1 := if !obj.deletionTimestampIsZero then tr ++ [Call.RemoveFinalizer] else tr
  let tr2 := tr1 ++ [Call.Event "Normal" "Ignoring" "Ignoring object based on annotation"]
  { RequeueAfter := 0, err := (env.Update tr2 obj1).2, trace := tr2 ++ [Call.Update obj1] }

/-- The method `ScalewayReconciler.Reconcile`. -/
def Reconcile (env : Env) : Outcome :=
  match env.Get with
  | .error err =>
    { RequeueAfter := 0, err := if env.IsNotFound err then none else some err,
      trace := [Call.Get] }
  | .ok obj =>
    match env.Accessor obj with
    | some err => { RequeueAfter := 0, err := some err, trace := [Call.Get] }
    | none =>
      if isIgnored env obj then reconcileIgnored env obj [Call.Get]
      else reconcileActive env obj [Call.Get]

/-! ## pkg/utils/labels.go -/

/-- A Go `map[string]string`, as the list of its entries in the order in
which one `range` loop visits them; the keys of a map are pairwise
distinct. -/
abbrev Labels := List (String × String)

/-- The list of entries is a map: no key occurs twice. -/
def Labels.distinctKeys (labels : Labels) : Prop :=
  (labels.map (fun kv => kv.1)).Nodup

instance (labels : Labels) : Decidable labels.distinctKeys :=
  inferInstanceAs (Decidable (labels.map (fun kv : String × String => kv.1)).Nodup)

/-- LabelsToTags transform labels into tags. -/
def LabelsToTags (labels : Labels) : List String :=
  labels.map (fun kv => kv.1 ++ "=" ++ kv.2)

/-- CompareTagsLabels returns true if the tags and labels are equal. -/
def CompareTagsLabels (tags : List String) (labels : Labels) : Bool :=
  if tags.length ≠ labels.length then false
  else labels.all (fun kv => tags.any (fun tag => tag == kv.1 ++ "=" ++ kv.2))

/-- A label map with two distinct keys whose "key=value" strings coincide. -/
def collidingLabels : Labels := [("a", "b=c"), ("a=b", "c")]

/-! ## pkg/manager/rdb: the Delete method of the three drivers -/

/-- RDBInstanceRef defines a reference to an RDB instance. -/
structure RDBInstanceRef where
  ExternalID : String
  Region : String
  Name : String
  Namespace : String
  deriving DecidableEq, Repr

/-- RDBACLRule defines a rule of the ACL of an instance. -/
structure RDBACLRule where
  IPRange : String
  Description : String
  deriving DecidableEq, Repr

/-- RDBACL defines the ACLs of an instance. -/
structure RDBACL where
  Rules : List RDBACLRule
  AllowCluster : Bool
  deriving DecidableEq, Repr

/-- RDBInstanceAutoBackup defines the auto backup state of an instance; the
two optional int32 fields are integers. -/
structure RDBInstanceAutoBackup where
  Disabled : Bool
  Frequency : Option Int
  Retention : Option Int
  deriving DecidableEq, Repr

/-- RDBInstanceEndpoint defines the endpoint of a RDBInstance. -/
structure RDBInstanceEndpoint where
  IP : String
  Port : Int
  deriving DecidableEq, Repr

/-- RDBInstanceSpec defines the desired state of RDBInstance. -/
structure RDBInstanceSpec where
  InstanceID : String
  Region : String
  InstanceFrom : Option RDBInstanceRef := none
  Engine : String := ""
  NodeType : String := ""
  IsHaCluster : Bool := false
  AutoBackup : Option RDBInstanceAutoBackup := none
  ACL : Option RDBACL := none
  deriving DecidableEq, Repr

/-- RDBInstance is the Schema for the database instances API: name,
namespace, labels, spec and the endpoint of its status. -/
structure RDBInstance where
  Name : String
  Namespace : String
  Spec : RDBInstanceSpec
  Labels : Labels := []
  Endpoint : RDBInstanceEndpoint := { IP := "", Port := 0 }
  deriving DecidableEq, Repr

/-- RDBDatabaseSpec defines the desired state of RDBDatabase. -/
structure RDBDatabaseSpec where
  InstanceRef : RDBInstanceRef
  OverrideName : String
  deriving DecidableEq, Repr

/-- RDBDatabase is the Schema for the databases API: name, namespace and
spec. -/
structure RDBDatabase where
  Name : String
  Namespace : String
  Spec : RDBDatabaseSpec
  deriving DecidableEq, Repr

/-- The type `corev1.SecretReference`. -/
structure SecretReference where
  Name : String
  Namespace : String
  deriving DecidableEq, Repr

/-- RDBInstancePassword defines the password of a user: a literal value or a
reference to a secret. -/
structure RDBInstancePassword where
  Value : Option String
  ValueFrom : Option SecretReference
  deriving DecidableEq, Repr

/-- RDBUserSpec defines the desired state of RDBUser (the privileges, which no
driver method reads, are left out). -/
structure RDBUserSpec where
  UserName : String
  InstanceRef : RDBInstanceRef
  Password : RDBInstancePassword := { Value := none, ValueFrom := none }
  Admin : Bool := false
  deriving DecidableEq, Repr

/-- RDBUser is the Schema for the users API: name, namespace and spec. -/
structure RDBUser where
  Name : String
  Namespace : String
  Spec : RDBUserSpec
  deriving DecidableEq, Repr

/-- A `runtime.Object` handed to a driver: one of the three RDB kinds, or an
object of another kind. -/
inductive RuntimeObject where
  | ofInstance (o : RDBInstance)
  | ofDatabase (o : RDBDatabase)
  | ofUser (o : RDBUser)
  | ofOther (kind : String)
  deriving DecidableEq, Repr

/-- What the collaborators of the drivers return: the object store read of an
RDBInstance by name and namespace, and the delete calls of the RDB API by
region, instance ID and, for databases and users, name. -/
structure ManagerEnv where
  GroupVersionKind : RuntimeObject → String
  Get : String → String → Except Error RDBInstance
  DeleteInstance : String → String → Option Error
  DeleteDatabase : String → String → String → Option Error
  DeleteUser : String → String → String → Option Error

/-- The function `convertInstance`. -/
def convertInstance (m : ManagerEnv) (obj : RuntimeObject) : Except Error RDBInstance :=
  match obj with
  | .ofInstance o => .ok o
  | _ => .error ⟨.Other, "failed type assertion on kind: " ++ m.GroupVersionKind obj⟩

/-- The function `convertDatabase`. -/
def convertDatabase (m : ManagerEnv) (obj : RuntimeObject) : Except Error RDBDatabase :=
  match obj with
  | .ofDatabase o => .ok o
  | _ => .error ⟨.Other, "failed type assertion on kind: " ++ m.GroupVersionKind obj⟩

/-- The function `convertUser`. -/
def convertUser (m : ManagerEnv) (obj : RuntimeObject) : Except Error RDBUser :=
  match obj with
  | .ofUser o => .ok o
  | _ => .error ⟨.Other, "failed type assertion on kind: " ++ m.GroupVersionKind obj⟩

/-- The method `InstanceManager.Delete`. -/
def InstanceManager.Delete (m : ManagerEnv) (obj : RuntimeObject) : Bool × Option Error :=
  match convertInstance m obj with
  | .error err => (false, some err)
  | .ok inst =>
    let region := inst.Spec.Region
    let resourceID := inst.Spec.InstanceID
    if resourceID = "" then (true, none)
    else
      match m.DeleteInstance region resourceID with
      | some err =>
        if err.kind = ErrorKind.ResourceNotFoundError then (true, none)
        else (false, some err)
      | none => (false, none)

/-- The method `DatabaseManager.getInstanceIDAndRegion`: the instance ID and
the region, in this order. -/
def DatabaseManager.getInstanceIDAndRegion (m : ManagerEnv) (database : RDBDatabase) :
    Except Error (String × String) :=
  if database.Spec.InstanceRef.Name ≠ "" then
    let databaseNamespace :=
      if database.Spec.InstanceRef.Namespace = "" then database.Namespace
      else database.Spec.InstanceRef.Namespace
    match m.Get database.Spec.InstanceRef.Name databaseNamespace with
    | .error err => .error err
    | .ok inst => .ok (inst.Spec.InstanceID, inst.Spec.Region)
  else .ok (database.Spec.InstanceRef.ExternalID, database.Spec.InstanceRef.Region)

/-- The method `DatabaseManager.Delete`. -/
def DatabaseManager.Delete (m : ManagerEnv) (obj : RuntimeObject) : Bool × Option Error :=
  match convertDatabase m obj with
  | .error err => (false, some err)
  | .ok database =>
    match DatabaseManager.getInstanceIDAndRegion m database with
    | .error err => (false, some err)
    | .ok (instanceID, region) =>
      let name :=
        if database.Spec.OverrideName ≠ "" then database.Spec.OverrideName else database.Name
      match m.DeleteDatabase region instanceID name with
      | some err =>
        if err.kind = ErrorKind.ResourceNotFoundError then (true, none)
        else (false, some err)
      | none => (true, none)

/-- The method `UserManager.getInstanceIDAndRegion`: the instance ID and the
region, in this order. -/
def UserManager.getInstanceIDAndRegion (m : ManagerEnv) (user : RDBUser) :
    Except Error (String × String) :=
  if user.Spec.InstanceRef.Name ≠ "" then
    let userNamespace :=
      if user.Spec.InstanceRef.Namespace = "" then user.Namespace
      else user.Spec.InstanceRef.Namespace
    match m.Get user.Spec.InstanceRef.Name userNamespace with
    | .error err => .error err
    | .ok inst => .ok (inst.Spec.InstanceID, inst.Spec.Region)
  else .ok (user.Spec.InstanceRef.ExternalID, user.Spec.InstanceRef.Region)

/-- The method `UserManager.Delete`. -/
def UserManager.Delete (m : ManagerEnv) (obj : RuntimeObject) : Bool × Option Error :=
  match convertUser m obj with
  | .error err => (false, some err)
  | .ok user =>
    match UserManager.getInstanceIDAndRegion m user with
    | .error err => (false, some err)
    | .ok (instanceID, region) =>
      if instanceID = "" then (true, none)
      else
        match m.DeleteUser region instanceID user.Spec.UserName with
        | some err =>
          if err.kind = ErrorKind.ResourceNotFoundError then (true, none)
          else (false, some err)
        | none => (false, none)

/-- A reference to an instance by its external ID. -/
def externalRef : RDBInstanceRef :=
  { ExternalID := "11111111-1111-1111-1111-111111111111", Region := "fr-par",
    Name := "", Namespace := "" }

/-- An RDBInstance that has been created on the backend. -/
def sampleInstance : RDBInstance :=
  { Name := "db", Namespace := "default",
    Spec := { InstanceID := "11111111-1111-1111-1111-111111111111", Region := "fr-par" } }

/-- A driver environment in which every backend delete call fails with the
given error. -/
def failingBackend (e : Error) : ManagerEnv :=
  { GroupVersionKind := fun _ => "rdb.scaleway.com/v1alpha1, Kind=Unknown"
    Get := fun _ _ => .ok sampleInstance
    DeleteInstance := fun _ _ => some e
    DeleteDatabase := fun _ _ _ => some e
    DeleteUser := fun _ _ _ => some e }

/-! ## pkg/manager/rdb: the RDB API and the object store, as seen by the drivers -/

/-- A `net.IP`, as far as the drivers observe it: the text `String()` returns
and whether `To4()` is non-nil. -/
structure IP where
  text : String
  isV4 : Bool
  deriving DecidableEq, Repr

/-- A `net.IPMask` built by `net.CIDRMask(ones, bits)`. -/
structure IPMask where
  Ones : Nat
  Bits : Nat
  deriving DecidableEq, Repr

/-- A `net.IPNet`. -/
structure IPNet where
  IP : IP
  Mask : IPMask
  deriving DecidableEq, Repr

/-- The backup schedule of an `rdb.Instance`; the uint32 fields are
integers. -/
structure RdbBackupSchedule where
  Disabled : Bool
  Frequency : Int
  Retention : Int
  deriving DecidableEq, Repr

/-- The endpoint of an `rdb.Instance`. -/
structure RdbEndpoint where
  IP : IP
  Port : Int
  deriving DecidableEq, Repr

/-- The fields of an `rdb.Instance` (the instance as the backend reports it)
that the drivers read. -/
structure RdbInstance where
  ID : String
  Region : String
  Engine : String
  NodeType : String
  Status : String
  IsHaCluster : Bool
  Tags : List String
  BackupSchedule : Option RdbBackupSchedule
  Endpoint : Option RdbEndpoint
  deriving DecidableEq, Repr

/-- The fields of an `rdb.NodeType` that the drivers read. -/
structure RdbNodeType where
  Name : String
  Disabled : Bool
  deriving DecidableEq, Repr

/-- The fields of an `rdb.User` that the drivers read. -/
structure RdbUser where
  Name : String
  IsAdmin : Bool
  deriving DecidableEq, Repr

/-- The request `rdb.UpdateInstanceRequest`; an unset pointer field is
`none`. -/
structure UpdateInstanceRequest where
  Region : String
  InstanceID : String
  Tags : Option (List String)
  IsBackupScheduleDisabled : Option Bool
  BackupScheduleFrequency : Option Int
  BackupScheduleRetention : Option Int
  deriving DecidableEq, Repr

/-- The request `rdb.UpgradeInstanceRequest`. -/
structure UpgradeInstanceRequest where
  Region : String
  InstanceID : String
  EnableHa : Option Bool
  NodeType : Option String
  deriving DecidableEq, Repr

/-- The request `rdb.ACLRuleRequest`. -/
structure ACLRuleRequest where
  IP : IPNet
  Description : String
  deriving DecidableEq, Repr

/-- The request `rdb.CloneInstanceRequest`. -/
structure CloneInstanceRequest where
  Region : String
  InstanceID : String
  NodeType : String
  Name : String
  deriving DecidableEq, Repr

/-- The request `rdb.CreateInstanceRequest`. -/
structure CreateInstanceRequest where
  Region : String
  DisableBackup : Bool
  Engine : String
  IsHaCluster : Bool
  Name : String
  NodeType : String
  Tags : List String
  deriving DecidableEq, Repr

/-- An address of a node (`corev1.NodeAddress`). -/
structure NodeAddress where
  Type_ : String
  Address : String
  deriving DecidableEq, Repr

/-- A call made by a driver on the RDB API or on the object store. -/
inductive ApiCall where
  | GetInstance (region instanceID : String)
  | ListNodeTypes (region : String)
  | UpdateInstance (req : UpdateInstanceRequest)
  | UpgradeInstance (req : UpgradeInstanceRequest)
  | ListInstanceACLRules (region instanceID : String)
  | SetInstanceACLRules (region instanceID : String) (rules : List ACLRuleRequest)
  | CloneInstance (req : CloneInstanceRequest)
  | CreateInstance (req : CreateInstanceRequest)
  | ListUsers (region instanceID name : String)
  | UpdateUser (region instanceID name : String) (isAdmin : Bool)
  | CreateUser (region instanceID : String) (isAdmin : Bool) (name password : String)
  | ClientGetInstance (name ns : String)
  | ClientGetSecret (name ns : String)
  | ClientListNodes
  | ClientUpdate (o : RDBInstance)
  deriving DecidableEq, Repr

/-- The call is one of the backend mutations of an existing instance:
UpdateInstance, UpgradeInstance or SetInstanceACLRules. -/
def ApiCall.isMutation : ApiCall → Bool
  | .UpdateInstance _ => true
  | .UpgradeInstance _ => true
  | .SetInstanceACLRules _ _ _ => true
  | _ => false

/-- The call is UpdateInstance or UpgradeInstance. -/
def ApiCall.isUpdateOrUpgrade : ApiCall → Bool
  | .UpdateInstance _ => true
  | .UpgradeInstance _ => true
  | _ => false

/-- What the collaborators of the drivers return, beyond `ManagerEnv`: the
RDB API, the object store and the library functions `scw.ParseRegion`,
`net.ParseIP`, `net.ParseCIDR` and `IPNet.String`. -/
structure RdbEnv extends ManagerEnv where
  ParseRegion : String → Option Error
  ParseIP : String → Option IP
  ParseCIDR : String → Except Error (Option IPNet)
  IPNetString : IPNet → String
  GetInstance : String → String → Except Error RdbInstance
  ListNodeTypes : String → Except Error (List RdbNodeType)
  UpdateInstance : UpdateInstanceRequest → Option Error
  UpgradeInstance : UpgradeInstanceRequest → Option Error
  ListInstanceACLRules : String → String → Except Error (List IPNet)
  SetInstanceACLRules : String → String → List ACLRuleRequest → Option Error
  CloneInstance : CloneInstanceRequest → Except Error RdbInstance
  CreateInstance : CreateInstanceRequest → Except Error RdbInstance
  ListUsers : String → String → String → Except Error (List RdbUser)
  UpdateUser : String → String → String → Bool → Option Error
  CreateUser : String → String → Bool → String → String → Except Error RdbUser
  GetSecret : String → String → Except Error (List (String × String))
  ListNodes : Except Error (List (List NodeAddress))
  ClientUpdate : RDBInstance → Option Error

/-! ## pkg/manager/rdb: admission validation -/

/-- The type `field.ErrorType`, for the three kinds the drivers use. -/
inductive ErrorType where
  | Required
  | Forbidden
  | Invalid
  deriving DecidableEq, Repr

/-- An element of a `field.ErrorList`; the path is its dotted text. -/
structure FieldError where
  Type_ : ErrorType
  Field : String
  BadValue : String
  Detail : String
  deriving DecidableEq, Repr

/-- The library function `field.Required(path, detail)`. -/
def fieldRequired (path detail : String) : FieldError :=
  { Type_ := .Required, Field := path, BadValue := "", Detail := detail }

/-- The library function `field.Forbidden(path, detail)`. -/
def fieldForbidden (path detail : String) : FieldError :=
  { Type_ := .Forbidden, Field := path, BadValue := "", Detail := detail }

/-- The library function `field.Invalid(path, value, detail)`. -/
def fieldInvalid (path value detail : String) : FieldError :=
  { Type_ := .Invalid, Field := path, BadValue := value, Detail := detail }

/-- What a validation method returns (error list and error), and the backend
calls it made. -/
structure ValidateResult where
  errs : List FieldError
  err : Option Error
  calls : List ApiCall
  deriving DecidableEq, Repr

/-- The method `DatabaseManager.ValidateCreate`. -/
def DatabaseManager.ValidateCreate (m : RdbEnv) (obj : RuntimeObject) : ValidateResult :=
  match convertDatabase m.toManagerEnv obj with
  | .error err => { errs := [], err := some err, calls := [] }
  | .ok database =>
    let byName := database.Spec.InstanceRef.Name ≠ "" ∨ database.Spec.InstanceRef.Namespace ≠ ""
    let byID := database.Spec.InstanceRef.ExternalID ≠ "" ∨ database.Spec.InstanceRef.Region ≠ ""
    if database.Spec.InstanceRef.Name = "" ∧ database.Spec.InstanceRef.ExternalID = "" then
      { errs := [fieldRequired "spec.instanceRef"
          "name/namespace or externalID/region must be specified"],
        err := none, calls := [] }
    else if byName ∧ byID then
      { errs := [fieldForbidden "spec.instanceRef"
          "only on of name/namespace and externalID/region must be specified"],
        err := none, calls := [] }
    else if byID then
      if database.Spec.InstanceRef.Region ≠ "" ∧
          (m.ParseRegion database.Spec.InstanceRef.Region).isSome then
        { errs := [fieldInvalid "spec.instanceRef.region" database.Spec.InstanceRef.Region
            "region is not valid"],
          err := none, calls := [] }
      else
        match m.GetInstance database.Spec.InstanceRef.Region
            database.Spec.InstanceRef.ExternalID with
        | .error err =>
          { errs := [fieldInvalid "spec.instanceRef.externalID"
              database.Spec.InstanceRef.ExternalID err.text],
            err := none,
            calls := [.GetInstance database.Spec.InstanceRef.Region
              database.Spec.InstanceRef.ExternalID] }
        | .ok _ =>
          { errs := [], err := none,
            calls := [.GetInstance database.Spec.InstanceRef.Region
              database.Spec.InstanceRef.ExternalID] }
    else { errs := [], err := none, calls := [] }

/-- The method `DatabaseManager.ValidateUpdate`. The first test compares the
override name of the old object with itself, as the source does. -/
def DatabaseManager.ValidateUpdate (m : RdbEnv) (oldObj obj : RuntimeObject) :
    ValidateResult :=
  match convertDatabase m.toManagerEnv obj with
  | .error err => { errs := [], err := some err, calls := [] }
  | .ok database =>
    match convertDatabase m.toManagerEnv oldObj with
    | .error err => { errs := [], err := some err, calls := [] }
    | .ok oldDatabase =>
      let e1 :=
        if oldDatabase.Spec.OverrideName ≠ oldDatabase.Spec.OverrideName then
          [fieldForbidden "spec.overrideName" "field is immutable"]
        else []
      let e2 :=
        if oldDatabase.Spec.InstanceRef.Region ≠ database.Spec.InstanceRef.Region then
          [fieldForbidden "spec.instanceRef.region" "field is immutable"]
        else []
      let e3 :=
        if oldDatabase.Spec.InstanceRef.ExternalID ≠ database.Spec.InstanceRef.ExternalID then
          [fieldForbidden "spec.instanceRef.externalID" "field is immutable"]
        else []
      let e4 :=
        if oldDatabase.Spec.InstanceRef.Name ≠ database.Spec.InstanceRef.Name then
          [fieldForbidden "spec.instanceRef.name" "field is immutable"]
        else []
      let e5 :=
        if oldDatabase.Spec.InstanceRef.Namespace ≠ database.Spec.InstanceRef.Namespace then
          [fieldForbidden "spec.instanceRef.namespace" "field is immutable"]
        else []
      { errs := e1 ++ e2 ++ e3 ++ e4 ++ e5, err := none, calls := [] }

/-- The method `InstanceManager.checkNodeType`: the error list, the error and
the backend calls. -/
def InstanceManager.checkNodeType (m : RdbEnv) (region instanceNodeType : String) :
    ValidateResult :=
  match m.ListNodeTypes region with
  | .error err => { errs := [], err := some err, calls := [.ListNodeTypes region] }
  | .ok nodeTypes =>
    match nodeTypes.find? (fun nodeType => nodeType.Name == instanceNodeType) with
    | some nodeType =>
      { errs :=
          if nodeType.Disabled then
            [fieldInvalid "spec.nodeType" instanceNodeType "node type is disabled"]
          else [],
        err := none, calls := [.ListNodeTypes region] }
    | none =>
      { errs := [fieldInvalid "spec.nodeType" instanceNodeType "node type does not exist"],
        err := none, calls := [.ListNodeTypes region] }

/-- The method `InstanceManager.ValidateUpdate`. -/
def InstanceManager.ValidateUpdate (m : RdbEnv) (oldObj obj : RuntimeObject) :
    ValidateResult :=
  match convertInstance m.toManagerEnv obj with
  | .error err => { errs := [], err := some err, calls := [] }
  | .ok inst =>
    match convertInstance m.toManagerEnv oldObj with
    | .error err => { errs := [], err := some err, calls := [] }
    | .ok oldInstance =>
      let e1 :=
        if oldInstance.Spec.InstanceID ≠ "" ∧
            oldInstance.Spec.InstanceID ≠ inst.Spec.InstanceID then
          [fieldForbidden "spec.instanceID" "field is immutable"]
        else []
      let e2 :=
        if oldInstance.Spec.Region ≠ "" ∧ oldInstance.Spec.Region ≠ inst.Spec.Region then
          [fieldForbidden "spec.region" "field is immutable"]
        else []
      let e3 :=
        if oldInstance.Spec.Engine ≠ inst.Spec.Engine then
          [fieldForbidden "spec.engine" "field is immutable"]
        else []
      let e4 :=
        if oldInstance.Spec.IsHaCluster ≠ inst.Spec.IsHaCluster ∧
            oldInstance.Spec.IsHaCluster = true then
          [fieldInvalid "spec.isHaCluster" inst.Spec.Engine "HA instance can't be downgraded"]
        else []
      if oldInstance.Spec.NodeType ≠ inst.Spec.NodeType then
        let r := InstanceManager.checkNodeType m inst.Spec.Region inst.Spec.NodeType
        match r.err with
        | some err => { errs := [], err := some err, calls := r.calls }
        | none => { errs := e1 ++ e2 ++ e3 ++ e4 ++ r.errs, err := none, calls := r.calls }
      else { errs := e1 ++ e2 ++ e3 ++ e4, err := none, calls := [] }

/-- A driver environment in which every backend call and every object store
call succeeds: `inst` is the instance the backend reports, the node types are
those given, no user and no ACL rule exists. -/
def quietRdb (inst : RdbInstance) (nodeTypes : List RdbNodeType) : RdbEnv :=
  { GroupVersionKind := fun _ => "rdb.scaleway.com/v1alpha1, Kind=Unknown"
    Get := fun _ _ => .ok sampleInstance
    DeleteInstance := fun _ _ => none
    DeleteDatabase := fun _ _ _ => none
    DeleteUser := fun _ _ _ => none
    ParseRegion := fun _ => none
    ParseIP := fun t => some { text := t, isV4 := true }
    ParseCIDR := fun t => .ok (some { IP := { text := t, isV4 := true },
                                      Mask := { Ones := 32, Bits := 32 } })
    IPNetString := fun n => n.IP.text
    GetInstance := fun _ _ => .ok inst
    ListNodeTypes := fun _ => .ok nodeTypes
    UpdateInstance := fun _ => none
    UpgradeInstance := fun _ => none
    ListInstanceACLRules := fun _ _ => .ok []
    SetInstanceACLRules := fun _ _ _ => none
    CloneInstance := fun _ => .ok inst
    CreateInstance := fun _ => .ok inst
    ListUsers := fun _ _ _ => .ok []
    UpdateUser := fun _ _ _ _ => none
    CreateUser := fun _ _ a n _ => .ok { Name := n, IsAdmin := a }
    GetSecret := fun _ _ => .ok [("password", "secret")]
    ListNodes := .ok []
    ClientUpdate := fun _ => none }

/-- The instance as the backend reports it: ready, no tag, not HA. -/
def backendInstance : RdbInstance :=
  { ID := "11111111-1111-1111-1111-111111111111", Region := "fr-par",
    Engine := "PostgreSQL-12", NodeType := "db-dev-s", Status := "ready",
    IsHaCluster := false, Tags := [], BackupSchedule := none, Endpoint := none }

/-- An RDBDatabase that refers to its instance by name. -/
def sampleDatabase : RDBDatabase :=
  { Name := "mydb", Namespace := "default",
    Spec := { InstanceRef := { ExternalID := "", Region := "", Name := "db", Namespace := "" },
              OverrideName := "a" } }

/-- The same RDBDatabase with another override name. -/
def renamedDatabase : RDBDatabase :=
  { sampleDatabase with Spec := { sampleDatabase.Spec with OverrideName := "b" } }

/-- An RDBInstance that has not been created on the backend yet. -/
def pendingInstance : RDBInstance :=
  { Name := "db", Namespace := "default",
    Spec := { InstanceID := "", Region := "fr-par", Engine := "PostgreSQL-12",
              NodeType := "db-dev-s" } }

/-- The same RDBInstance once the instance ID is filled in. -/
def createdInstance : RDBInstance :=
  { pendingInstance with
    Spec := { pendingInstance.Spec with InstanceID := "11111111-1111-1111-1111-111111111111" } }

/-- The created RDBInstance with an instanceFrom reference added. -/
def clonedFromInstance : RDBInstance :=
  { createdInstance with
    Spec := { createdInstance.Spec with InstanceFrom := some externalRef } }

/-- The created RDBInstance moved to another instance ID. -/
def movedInstance : RDBInstance :=
  { createdInstance with
    Spec := { createdInstance.Spec with InstanceID := "22222222-2222-2222-2222-222222222222" } }

/-! ## pkg/manager/rdb: Ensure -/

/-- What Ensure returns (the boolean and the error), the calls it made and
the object as it leaves it. -/
structure EnsureResult where
  ensured : Bool
  err : Option Error
  calls : List ApiCall
  obj : RuntimeObject
  deriving DecidableEq, Repr

/-- The Go conversion `uint32(x)` of an int32. -/
def toUint32 (x : Int) : Int := x % 4294967296

/-- The Go conversion `int32(x)` of a uint32. -/
def toInt32 (x : Int) : Int := (x + 2147483648) % 4294967296 - 2147483648

/-- The constant `rdb.InstanceStatusReady`. -/
def InstanceStatusReady : String := "ready"

/-- The constant `SecretPasswordKey`. -/
def SecretPasswordKey : String := "password"

/-- The method `InstanceManager.getInstanceFromIDAndRegion`; `ref` is the
dereferenced `instance.Spec.InstanceFrom`. Returns the instance ID and the
region, in this order, and the calls made. -/
def InstanceManager.getInstanceFromIDAndRegion (m : RdbEnv) (inst : RDBInstance)
    (ref : RDBInstanceRef) : Except Error (String × String) × List ApiCall :=
  if ref.Name ≠ "" then
    let instanceNamespace := if ref.Namespace = "" then inst.Namespace else ref.Namespace
    match m.Get ref.Name instanceNamespace with
    | .error err => (.error err, [.ClientGetInstance ref.Name instanceNamespace])
    | .ok instanceFrom =>
      (.ok (instanceFrom.Spec.InstanceID, instanceFrom.Spec.Region),
       [.ClientGetInstance ref.Name instanceNamespace])
  else (.ok (ref.ExternalID, ref.Region), [])

/-- The method `InstanceManager.createInstance`: the error, the instance as
it leaves it and the calls made. -/
def InstanceManager.createInstance (m : RdbEnv) (inst : RDBInstance) :
    Option Error × RDBInstance × List ApiCall :=
  match inst.Spec.InstanceFrom with
  | some ref =>
    let g := InstanceManager.getInstanceFromIDAndRegion m inst ref
    match g.1 with
    | .error err => (some err, inst, g.2)
    | .ok (instanceID, region) =>
      let req : CloneInstanceRequest :=
        { Region := region, InstanceID := instanceID, NodeType := inst.Spec.NodeType,
          Name := inst.Name }
      match m.CloneInstance req with
      | .error err => (some err, inst, g.2 ++ [.CloneInstance req])
      | .ok resp =>
        let inst1 : RDBInstance :=
          { inst with Spec := { inst.Spec with InstanceID := resp.ID, Region := resp.Region } }
        (m.ClientUpdate inst1, inst1, g.2 ++ [.CloneInstance req, .ClientUpdate inst1])
  | none =>
    let disableBackup :=
      match inst.Spec.AutoBackup with
      | some autoBackup => autoBackup.Disabled
      | none => true
    let req : CreateInstanceRequest :=
      { Region := inst.Spec.Region, DisableBackup := disableBackup,
        Engine := inst.Spec.Engine, IsHaCluster := inst.Spec.IsHaCluster,
        Name := inst.Name, NodeType := inst.Spec.NodeType,
        Tags := LabelsToTags inst.Labels }
    match m.CreateInstance req with
    | .error err => (some err, inst, [.CreateInstance req])
    | .ok resp =>
      let inst1 : RDBInstance :=
        { inst with Spec := { inst.Spec with InstanceID := resp.ID, Region := resp.Region } }
      (m.ClientUpdate inst1, inst1, [.CreateInstance req, .ClientUpdate inst1])

/-- Lines 173-197 of `InstanceManager.updateInstance`: the update request and
whether an update is needed. -/
def InstanceManager.updateRequest (inst : RDBInstance) (rdbInstance : RdbInstance) :
    UpdateInstanceRequest × Bool :=
  let req0 : UpdateInstanceRequest :=
    { Region := inst.Spec.Region, InstanceID := inst.Spec.InstanceID, Tags := none,
      IsBackupScheduleDisabled := none, BackupScheduleFrequency := none,
      BackupScheduleRetention := none }
  let n1 := !CompareTagsLabels rdbInstance.Tags inst.Labels
  let req1 := if n1 then { req0 with Tags := some (LabelsToTags inst.Labels) } else req0
  match inst.Spec.AutoBackup, rdbInstance.BackupSchedule with
  | some autoBackup, some schedule =>
    let n2 := autoBackup.Disabled != schedule.Disabled
    let req2 :=
      if n2 then { req1 with IsBackupScheduleDisabled := some autoBackup.Disabled } else req1
    let n3 :=
      match autoBackup.Frequency with
      | some f => toUint32 f != schedule.Frequency
      | none => false
    let req3 :=
      if n3 then { req2 with BackupScheduleFrequency := autoBackup.Frequency.map toUint32 }
      else req2
    let n4 :=
      match autoBackup.Retention with
      | some r => toUint32 r != schedule.Retention
      | none => false
    let req4 :=
      if n4 then { req3 with BackupScheduleRetention := autoBackup.Retention.map toUint32 }
      else req3
    (req4, n1 || n2 || n3 || n4)
  | _, _ => (req1, n1)

/-- The method `InstanceManager.updateInstance`: needReturn, the error and the
calls made. -/
def InstanceManager.updateInstance (m : RdbEnv) (inst : RDBInstance)
    (rdbInstance : RdbInstance) : Bool × Option Error × List ApiCall :=
  let r := InstanceManager.updateRequest inst rdbInstance
  if r.2 then
    match m.UpdateInstance r.1 with
    | some err => (false, some err, [.UpdateInstance r.1])
    | none => (true, none, [.UpdateInstance r.1])
  else (false, none, [])

/-- The method `InstanceManager.upgradeInstance`: needReturn, the error and
the calls made. -/
def InstanceManager.upgradeInstance (m : RdbEnv) (inst : RDBInstance)
    (rdbInstance : RdbInstance) : Bool × Option Error × List ApiCall :=
  let req0 : UpgradeInstanceRequest :=
    { Region := inst.Spec.Region, InstanceID := inst.Spec.InstanceID, EnableHa := none,
      NodeType := none }
  if rdbInstance.IsHaCluster ≠ inst.Spec.IsHaCluster then
    let req : UpgradeInstanceRequest := { req0 with EnableHa := some inst.Spec.IsHaCluster }
    match m.UpgradeInstance req with
    | some err => (false, some err, [.UpgradeInstance req])
    | none => (true, none, [.UpgradeInstance req])
  else if rdbInstance.NodeType ≠ inst.Spec.NodeType then
    let req : UpgradeInstanceRequest := { req0 with NodeType := some inst.Spec.NodeType }
    match m.UpgradeInstance req with
    | some err => (false, some err, [.UpgradeInstance req])
    | none => (true, none, [.UpgradeInstance req])
  else (false, none, [])

/-- The function `getIPNetFromIP`. -/
def getIPNetFromIP (ip : IP) : IPNet :=
  { IP := ip, Mask := if ip.isV4 then { Ones := 32, Bits := 32 } else { Ones := 128, Bits := 128 } }

/-- The method `InstanceManager.getNodesIP`, given the nodes the object store
lists: the parsed external and internal addresses of all nodes. -/
def InstanceManager.nodesIPOf (m : RdbEnv) (nodes : List (List NodeAddress)) : List IPNet :=
  (nodes.flatMap id).filterMap (fun addr =>
    if addr.Type_ = "ExternalIP" ∨ addr.Type_ = "InternalIP" then
      (m.ParseIP addr.Address).map getIPNetFromIP
    else none)

/-- The function `checkRulesUpdate`; `acl` is the dereferenced
`instance.Spec.ACL`. -/
def checkRulesUpdate (m : RdbEnv) (acl : RDBACL) (existingACLs : List IPNet)
    (nodesIP : List IPNet) : Bool :=
  if existingACLs.length ≠ nodesIP.length + acl.Rules.length then true
  else
    existingACLs.any (fun existingRule =>
      let foundWanted := acl.Rules.any (fun wantedRule =>
        match m.ParseIP wantedRule.IPRange with
        | some parsed => m.IPNetString existingRule == parsed.text
        | none => false)
      let foundNode := nodesIP.any (fun nodeRule =>
        m.IPNetString nodeRule == m.IPNetString existingRule)
      !(foundWanted || foundNode))

/-- The method `InstanceManager.updateACLs`; `acl` is the dereferenced
`instance.Spec.ACL`. Returns the error and the calls made. -/
def InstanceManager.updateACLs (m : RdbEnv) (inst : RDBInstance) (acl : RDBACL) :
    Option Error × List ApiCall :=
  let c0 : List ApiCall := [.ListInstanceACLRules inst.Spec.Region inst.Spec.InstanceID]
  match m.ListInstanceACLRules inst.Spec.Region inst.Spec.InstanceID with
  | .error err => (some err, c0)
  | .ok existingACLs =>
    let c1 := if acl.AllowCluster then c0 ++ [ApiCall.ClientListNodes] else c0
    let nodes : Except Error (List IPNet) :=
      if acl.AllowCluster then
        match m.ListNodes with
        | .error err => .error err
        | .ok ns => .ok (InstanceManager.nodesIPOf m ns)
      else .ok []
    match nodes with
    | .error err => (some err, c1)
    | .ok nodesIP =>
      if checkRulesUpdate m acl existingACLs nodesIP then
        let wanted := acl.Rules.filterMap (fun wantedRule =>
          match m.ParseCIDR wantedRule.IPRange with
          | .error _ => none
          | .ok none => none
          | .ok (some parsed) =>
            some ({ IP := parsed, Description := wantedRule.Description } : ACLRuleRequest))
        let rules := wanted ++
          nodesIP.map (fun nodeIP =>
            ({ IP := nodeIP, Description := "Kuberentes node" } : ACLRuleRequest))
        (m.SetInstanceACLRules inst.Spec.Region inst.Spec.InstanceID rules,
         c1 ++ [.SetInstanceACLRules inst.Spec.Region inst.Spec.InstanceID rules])
      else (none, c1)

/-- The method `InstanceManager.Ensure`. -/
def InstanceManager.Ensure (m : RdbEnv) (obj : RuntimeObject) : EnsureResult :=
  match convertInstance m.toManagerEnv obj with
  | .error err => { ensured := false, err := some err, calls := [], obj := obj }
  | .ok inst =>
    let region := inst.Spec.Region
    if inst.Spec.InstanceID = "" then
      let r := InstanceManager.createInstance m inst
      { ensured := false, err := r.1, calls := r.2.2, obj := .ofInstance r.2.1 }
    else
      let c0 : List ApiCall := [.GetInstance region inst.Spec.InstanceID]
      match m.GetInstance region inst.Spec.InstanceID with
      | .error err => { ensured := false, err := some err, calls := c0, obj := obj }
      | .ok rdbInstanceResp =>
        let u := InstanceManager.updateInstance m inst rdbInstanceResp
        match u.2.1 with
        | some err => { ensured := false, err := some err, calls := c0 ++ u.2.2, obj := obj }
        | none =>
          if u.1 then { ensured := false, err := none, calls := c0 ++ u.2.2, obj := obj }
          else
            let g := InstanceManager.upgradeInstance m inst rdbInstanceResp
            match g.2.1 with
            | some err =>
              { ensured := false, err := some err, calls := c0 ++ u.2.2 ++ g.2.2, obj := obj }
            | none =>
              if g.1 then
                { ensured := false, err := none, calls := c0 ++ u.2.2 ++ g.2.2, obj := obj }
              else
                let a : Option Error × List ApiCall :=
                  match inst.Spec.ACL with
                  | some acl => InstanceManager.updateACLs m inst acl
                  | none => (none, [])
                match a.1 with
                | some err =>
                  { ensured := false, err := some err,
                    calls := c0 ++ u.2.2 ++ g.2.2 ++ a.2, obj := obj }
                | none =>
                  let inst1 : RDBInstance :=
                    match rdbInstanceResp.Endpoint with
                    | some endpoint =>
                      { inst with
                        Endpoint := { IP := endpoint.IP.text, Port := toInt32 endpoint.Port } }
                    | none => inst
                  { ensured := rdbInstanceResp.Status == InstanceStatusReady, err := none,
                    calls := c0 ++ u.2.2 ++ g.2.2 ++ a.2, obj := .ofInstance inst1 }

/-- The calls of `UserManager.getInstanceIDAndRegion`: one read of the
referenced instance when the reference is by name. -/
def UserManager.instanceRefCalls (user : RDBUser) : List ApiCall :=
  if user.Spec.InstanceRef.Name ≠ "" then
    [.ClientGetInstance user.Spec.InstanceRef.Name
      (if user.Spec.InstanceRef.Namespace = "" then user.Namespace
       else user.Spec.InstanceRef.Namespace)]
  else []

/-- The method `UserManager.getByName`: the user found, if any, or the error,
and the calls made. -/
def UserManager.getByName (m : RdbEnv) (user : RDBUser) :
    Except Error (Option RdbUser) × List ApiCall :=
  match UserManager.getInstanceIDAndRegion m.toManagerEnv user with
  | .error err => (.error err, UserManager.instanceRefCalls user)
  | .ok (instanceID, region) =>
    let calls := UserManager.instanceRefCalls user ++
      [ApiCall.ListUsers region instanceID user.Spec.UserName]
    match m.ListUsers region instanceID user.Spec.UserName with
    | .error err =>
      if err.kind = ErrorKind.ResourceNotFoundError then (.ok none, calls)
      else (.error err, calls)
    | .ok users => (.ok (users.find? (fun rdbUser => rdbUser.Name == user.Spec.UserName)), calls)

/-- The method `UserManager.Ensure`. -/
def UserManager.Ensure (m : RdbEnv) (obj : RuntimeObject) : EnsureResult :=
  match convertUser m.toManagerEnv obj with
  | .error err => { ensured := false, err := some err, calls := [], obj := obj }
  | .ok user =>
    let c0 := UserManager.instanceRefCalls user
    match UserManager.getInstanceIDAndRegion m.toManagerEnv user with
    | .error err => { ensured := false, err := some err, calls := c0, obj := obj }
    | .ok (instanceID, region) =>
      let b := UserManager.getByName m user
      let c1 := c0 ++ b.2
      match b.1 with
      | .error err => { ensured := false, err := some err, calls := c1, obj := obj }
      | .ok (some rdbUser) =>
        if rdbUser.IsAdmin ≠ user.Spec.Admin then
          let c2 := c1 ++ [ApiCall.UpdateUser region instanceID rdbUser.Name user.Spec.Admin]
          match m.UpdateUser region instanceID rdbUser.Name user.Spec.Admin with
          | some err => { ensured := false, err := some err, calls := c2, obj := obj }
          | none => { ensured := false, err := none, calls := c2, obj := obj }
        else { ensured := false, err := none, calls := c1, obj := obj }
      | .ok none =>
        let create (password : String) (calls : List ApiCall) : EnsureResult :=
          let c3 := calls ++
            [ApiCall.CreateUser region instanceID user.Spec.Admin user.Spec.UserName password]
          match m.CreateUser region instanceID user.Spec.Admin user.Spec.UserName password with
          | .error err => { ensured := false, err := some err, calls := c3, obj := obj }
          | .ok _ => { ensured := false, err := none, calls := c3, obj := obj }
        match user.Spec.Password.ValueFrom with
        | some secretKeyRef =>
          let c2 := c1 ++ [ApiCall.ClientGetSecret secretKeyRef.Name secretKeyRef.Namespace]
          match m.GetSecret secretKeyRef.Name secretKeyRef.Namespace with
          | .error err => { ensured := false, err := some err, calls := c2, obj := obj }
          | .ok data => create ((data.lookup SecretPasswordKey).getD "") c2
        | none =>
          match user.Spec.Password.Value with
          | some value => create value c1
          | none => create "" c1

/-- An RDBInstance whose labels and node type differ from what the backend
reports and which asks for ACL rules. -/
def driftedInstance : RDBInstance :=
  { Name := "db", Namespace := "default",
    Spec := { InstanceID := "11111111-1111-1111-1111-111111111111", Region := "fr-par",
              Engine := "PostgreSQL-12", NodeType := "db-gp-m",
              ACL := some { Rules := [{ IPRange := "1.2.3.4/32", Description := "office" }],
                            AllowCluster := false } },
    Labels := [("app", "db")] }

/-- An RDBUser that refers to its instance by external ID. -/
def sampleUser : RDBUser :=
  { Name := "user", Namespace := "default",
    Spec := { UserName := "alice", InstanceRef := externalRef } }

/-! ## Sample stores and conditions -/

/-- A store with one Ready condition probed and changed at time 10. -/
def readyStore : Status :=
  { Conditions := [{ Type_ := Ready, Status := ConditionTrue, LastProbeTime := 10,
                     LastTransitionTime := 10, Reason := "reason", Message := "message" }] }

/-- A Ready condition with status True, as passed to updateCondition. -/
def readyTrue : Condition :=
  { Type_ := Ready, Status := ConditionTrue, LastProbeTime := 0,
    LastTransitionTime := 0, Reason := "reason", Message := "message" }

/-- The condition of type `T` with status `st`, reason `r` and message `m`
passed to updateCondition (its timestamps are not read). -/
def mkCondition (T : ConditionType) (st : ConditionStatus) (r m : String) : Condition :=
  { Type_ := T, Status := st, LastProbeTime := 0, LastTransitionTime := 0,
    Reason := r, Message := m }

/-- The lastTransitionTime of the condition of type `T`, when there is one. -/
def Status.transitionTime (s : Status) (T : ConditionType) : Option Time :=
  (s.getCondition T).map (fun c => c.LastTransitionTime)

/-- A store whose Reconciled condition was left by an in-progress pass. -/
def reconcilingStore : Status :=
  { Conditions := [{ Type_ := Reconciled, Status := ConditionFalse, LastProbeTime := 10,
                     LastTransitionTime := 10, Reason := "Reconciling",
                     Message := "Still reconciling" }] }

/-- A freshly created object: no annotation, no deletion timestamp, no
finalizer, empty status. -/
def freshObject : Object :=
  { Annotations := [], DeletionTimestamp := none, Finalizers := [],
    Status := Status.empty, Rest := "spec" }

/-- An object that carries the finalizer and is not being deleted. -/
def managedObject : Object :=
  { Annotations := [], DeletionTimestamp := none, Finalizers := [finalizerName],
    Status := reconcilingStore, Rest := "spec" }

/-- An object that carries the finalizer and whose deletion was requested. -/
def deletingObject : Object :=
  { Annotations := [], DeletionTimestamp := some 5, Finalizers := [finalizerName],
    Status := reconcilingStore, Rest := "spec" }

/-- An ignored object that carries the finalizer and whose deletion was
requested. -/
def ignoredDeletingObject : Object :=
  { Annotations := [( ignoreAnnotation, "True")], DeletionTimestamp := some 5,
    Finalizers := [finalizerName], Status := reconcilingStore, Rest := "spec" }

/-- An environment in which the fetch returns `obj` and every call succeeds
and leaves the object as it is: no owner, Ensure reports full
reconciliation, Delete reports that deletion is still running. -/
def quietEnv (obj : Object) : Env :=
  { RequeueDuration := 30000000000
    Now := 20
    ToLower := fun v => String.mk (v.data.map Char.toLower)
    IsNotFound := fun e => e.text == "not found"
    Accessor := fun _ => none
    Get := .ok obj
    Update := fun _ o => (o, none)
    StatusUpdate := fun _ o => (o, none)
    Delete := fun _ o => (o, false, none)
    Ensure := fun _ o => (o, true, none)
    GetOwners := fun _ _ => ([], none)
    GetOwner := fun _ _ => .error ⟨.Other, "not found"⟩
    SetControllerReference := fun _ o => (o, none) }

/-- The quiet environment of the managed object, except that the driver's
GetOwners fails. -/
def ownersFailEnv : Env :=
  { quietEnv managedObject with GetOwners := fun _ _ => ([], some ⟨.Other, "no owners"⟩) }

/-- The object handed to the status write of `ensureAndPersist`: the object
as Ensure left it, with the status computed by updateStatus. -/
def ensuredObject (env : Env) (obj : Object) (tr : List Call) : Object :=
  { (env.Ensure tr obj).1 with
    Status := (updateStatus env.RequeueDuration (env.Ensure tr obj).1.Status env.Now
      (env.Ensure tr obj).2.2 (env.Ensure tr obj).2.1).1 }

/-- The quiet environment of a fresh object, except that the fetch reports
that the object does not exist. -/
def notFoundEnv : Env :=
  { quietEnv freshObject with Get := .error ⟨.Other, "not found"⟩ }

/-- The quiet environment of the managed object, except that the write of the
status subresource fails. -/
def statusWriteFailEnv : Env :=
  { quietEnv managedObject with StatusUpdate := fun _ o => (o, some ⟨.Other, "conflict"⟩) }

/-- The quiet environment of the managed object, except that Ensure fails
with an out-of-stock error. -/
def ensureFailEnv : Env :=
  { quietEnv managedObject with
    Ensure := fun _ o => (o, false, some ⟨.OutOfStockError, "out of stock"⟩) }

/-! ## webhooks/utils.go -/

/-- The type `schema.GroupVersionKind`. -/
structure GroupVersionKind where
  Group : String
  Version : String
  Kind : String
  deriving DecidableEq, Repr

/-- The call `strings.Replace(s, old, new, -1)` for one-character `old` and
`new`: every occurrence of the character is replaced. -/
def ReplaceChar (s : String) (old new : Char) : String :=
  String.mk (s.data.map (fun c => if c = old then new else c))

/-- The function `strings.ToLower` on ASCII strings: the letters A to Z are
lower-cased, every other character is kept. -/
def asciiToLower (s : String) : String :=
  String.mk (s.data.map Char.toLower)

/-- GenerateValidatePath returns the path for this validating webhook; the
library function `strings.ToLower` is the first argument. -/
def GenerateValidatePath (ToLower : String → String) (gvk : GroupVersionKind) : String :=
  "/validate-" ++ ReplaceChar gvk.Group '.' '-' ++ "-" ++ gvk.Version ++ "-" ++
    ToLower gvk.Kind

/-! ## apis/meta/v1alpha1/status_helpers.go -/

/-- IsReady returns true is the Ready condition is True. -/
def Status.IsReady (s : Status) : Bool :=
  s.Conditions.any (fun c => c.Type_ == Ready && c.Status == ConditionTrue)

/-- IsReconciled returns true when some condition of type Reconciled has
status True. -/
def Status.IsReconciled (s : Status) : Bool :=
  s.Conditions.any (fun c => c.Type_ == Reconciled && c.Status == ConditionTrue)

/-! ## More specification vocabulary for the condition store -/

/-- The store holds at most one condition of type Reconciled. -/
def Status.atMostOneReconciled (s : Status) : Prop :=
  (s.Conditions.filter (fun c => c.Type_ == Reconciled)).length ≤ 1

instance (s : Status) : Decidable s.atMostOneReconciled :=
  inferInstanceAs (Decidable ((s.Conditions.filter (fun c => c.Type_ == Reconciled)).length ≤ 1))

/-- Every condition of the store has lastTransitionTime <= lastProbeTime. -/
def Status.transitionBeforeProbe (s : Status) : Prop :=
  ∀ c ∈ s.Conditions, c.LastTransitionTime ≤ c.LastProbeTime

instance (s : Status) : Decidable s.transitionBeforeProbe :=
  inferInstanceAs (Decidable (∀ c ∈ s.Conditions, c.LastTransitionTime ≤ c.LastProbeTime))

/-- The time argument of a call on the condition store. -/
def StoreOp.now : StoreOp → Time
  | .callCondition _ t => t
  | .callStatus _ t _ _ => t

/-- The times of a sequence of calls never decrease. -/
def nonDecreasing (ops : List StoreOp) : Prop :=
  (ops.map StoreOp.now).Pairwise (fun a b => a ≤ b)

instance (ops : List StoreOp) : Decidable (nonDecreasing ops) :=
  inferInstanceAs (Decidable ((ops.map StoreOp.now).Pairwise (fun a b => a ≤ b)))

/-- A store with two Reconciled conditions, the second with status True. -/
def twoReconciledStore : Status :=
  { Conditions :=
      [{ Type_ := Reconciled, Status := ConditionFalse, LastProbeTime := 10,
         LastTransitionTime := 10, Reason := "Reconciling", Message := "Still reconciling" },
       { Type_ := Reconciled, Status := ConditionTrue, LastProbeTime := 5,
         LastTransitionTime := 5, Reason := "", Message := "" }] }

/-- A store with a Ready condition set by a driver and a Reconciled
condition. -/
def readyAndReconciledStore : Status :=
  { Conditions :=
      [{ Type_ := Ready, Status := ConditionTrue, LastProbeTime := 10,
         LastTransitionTime := 10, Reason := "reason", Message := "message" },
       { Type_ := Reconciled, Status := ConditionFalse, LastProbeTime := 10,
         LastTransitionTime := 10, Reason := "Reconciling", Message := "Still reconciling" }] }

/-! ## Lemmas on the scan -/

theorem find_updateConditions_self (l : List Condition) (condition : Condition) (now : Time) :
    (updateConditions l condition now).find? (fun c => c.Type_ == condition.Type_) =
      some (match l.find? (fun c => c.Type_ == condition.Type_) with
        | some c => c.refresh condition now
        | none => condition.fresh now) := by
  induction l with
  | nil => simp [updateConditions, Condition.fresh]
  | cons c cs ih =>
    by_cases h : c.Type_ = condition.Type_
    · simp [updateConditions, h, Condition.refresh, List.find?_cons]
    · simp [updateConditions, h, List.find?_cons, ih]

theorem find_updateConditions_other (l : List Condition) (condition : Condition) (now : Time)
    (t : ConditionType) (ht : t ≠ condition.Type_) :
    (updateConditions l condition now).find? (fun c => c.Type_ == t) =
      l.find? (fun c => c.Type_ == t) := by
  induction l with
  | nil =>
    have h : condition.Type_ ≠ t := fun e => ht e.symm
    simp [updateConditions, Condition.fresh, h]
  | cons c cs ih =>
    by_cases h : c.Type_ = condition.Type_
    · have h2 : c.Type_ ≠ t := fun e => ht (e.symm.trans h)
      have h3 : condition.Type_ ≠ t := fun e => ht e.symm
      simp [updateConditions, h, Condition.refresh, List.find?_cons, h2, h3]
    · by_cases h2 : c.Type_ = t
      · subst h2
        simp [updateConditions, h, List.find?_cons]
      · simp [updateConditions, h, List.find?_cons, h2, ih]

theorem updateConditions_of_absent (l : List Condition) (condition : Condition) (now : Time)
    (h : ∀ c ∈ l, c.Type_ ≠ condition.Type_) :
    updateConditions l condition now = l ++ [condition.fresh now] := by
  induction l with
  | nil => rfl
  | cons c cs ih =>
    have hc : c.Type_ ≠ condition.Type_ := h c (List.mem_cons_self _ _)
    have hcs : ∀ x ∈ cs, x.Type_ ≠ condition.Type_ :=
      fun x hx => h x (List.mem_cons_of_mem _ hx)
    simp [updateConditions, hc, ih hcs]

theorem getCondition_updateCondition (s : Status) (condition : Condition) (now : Time) :
    (updateCondition s condition now).getCondition condition.Type_ =
      some (match s.getCondition condition.Type_ with
        | some c => c.refresh condition now
        | none => condition.fresh now) :=
  find_updateConditions_self s.Conditions condition now

/-! ## Theorems -/

/-- C1: when the condition of type T found in the store has the same status as
the new condition, updateCondition sets its lastProbeTime to now and keeps its
lastTransitionTime; applying the same condition at t1 and then at t2 leaves
lastTransitionTime as it was after the first application and lastProbeTime
equal to t2. -/
theorem updateCondition_same_status_keeps_transition
    (s : Status) (c condition : Condition) (now t1 t2 : Time)
    (hc : s.getCondition condition.Type_ = some c)
    (hs : c.Status = condition.Status) :
    (∃ c', (updateCondition s condition now).getCondition condition.Type_ = some c' ∧
        c'.LastProbeTime = now ∧
        c'.LastTransitionTime = c.LastTransitionTime ∧
        c'.Status = c.Status) ∧
    (∃ c1 c2,
        (updateCondition s condition t1).getCondition condition.Type_ = some c1 ∧
        (updateCondition (updateCondition s condition t1) condition t2).getCondition
          condition.Type_ = some c2 ∧
        c2.LastTransitionTime = c1.LastTransitionTime ∧
        c1.LastProbeTime = t1 ∧
        c2.LastProbeTime = t2) := by
  refine ⟨⟨c.refresh condition now, ?_, ?_, ?_, ?_⟩,
    ⟨c.refresh condition t1, (c.refresh condition t1).refresh condition t2, ?_, ?_, ?_, ?_, ?_⟩⟩
  · rw [getCondition_updateCondition, hc]
  · rfl
  · simp [Condition.refresh, hs]
  · simp [Condition.refresh, hs]
  · rw [getCondition_updateCondition, hc]
  · rw [getCondition_updateCondition, getCondition_updateCondition, hc]
  · simp [Condition.refresh]
  · rfl
  · rfl

theorem updateCondition_same_status_keeps_transition_witness :
    (readyStore.getCondition readyTrue.Type_ =
        some { Type_ := Ready, Status := ConditionTrue, LastProbeTime := 10,
               LastTransitionTime := 10, Reason := "reason", Message := "message" }) ∧
    (∃ c', (updateCondition readyStore readyTrue 20).getCondition readyTrue.Type_ = some c' ∧
        c'.LastProbeTime = 20 ∧ c'.LastTransitionTime = 10 ∧ c'.Status = ConditionTrue) :=
  ⟨by decide,
   (updateCondition_same_status_keeps_transition readyStore
      { Type_ := Ready, Status := ConditionTrue, LastProbeTime := 10,
        LastTransitionTime := 10, Reason := "reason", Message := "message" }
      readyTrue 20 20 30 (by decide) (by decide)).1⟩

/-- C2: from the empty store, four updates of one type with statuses True,
True, False, False at four distinct times give lastTransitionTime t0, t0, t2,
t2: it changes on the third update only. In general, on an existing type,
updateCondition assigns now to lastTransitionTime when the new status differs
from the stored one and leaves it as it was otherwise. -/
theorem updateCondition_transition_iff_status_differs
    (T : ConditionType) (r m : String) (t0 t1 t2 t3 : Time)
    (hd : [t0, t1, t2, t3].Nodup)
    (s : Status) (c condition : Condition) (now : Time)
    (hc : s.getCondition condition.Type_ = some c) :
    (let s1 := updateCondition Status.empty (mkCondition T ConditionTrue r m) t0
     let s2 := updateCondition s1 (mkCondition T ConditionTrue r m) t1
     let s3 := updateCondition s2 (mkCondition T ConditionFalse r m) t2
     let s4 := updateCondition s3 (mkCondition T ConditionFalse r m) t3
     s1.transitionTime T = some t0 ∧ s2.transitionTime T = some t0 ∧
     s3.transitionTime T = some t2 ∧ s4.transitionTime T = some t2 ∧
     s2.transitionTime T = s1.transitionTime T ∧
     s3.transitionTime T ≠ s2.transitionTime T ∧
     s4.transitionTime T = s3.transitionTime T) ∧
    (∃ c', (updateCondition s condition now).getCondition condition.Type_ = some c' ∧
      (c.Status ≠ condition.Status → c'.LastTransitionTime = now) ∧
      (c.Status = condition.Status → c'.LastTransitionTime = c.LastTransitionTime) ∧
      (c.LastTransitionTime ≠ now →
        (c'.LastTransitionTime = now ↔ c.Status ≠ condition.Status))) := by
  have h02 : t2 ≠ t0 := by
    intro h
    simp [h] at hd
  refine ⟨?_, c.refresh condition now, ?_, ?_, ?_, ?_⟩
  · simp [updateCondition, updateConditions, Status.transitionTime, Status.getCondition,
      Status.empty, mkCondition, Condition.fresh, Condition.refresh, ConditionTrue,
      ConditionFalse, h02]
  · rw [getCondition_updateCondition, hc]
  · intro h
    simp [Condition.refresh, h]
  · intro h
    simp [Condition.refresh, h]
  · intro h
    by_cases hs : c.Status = condition.Status
    · simp [Condition.refresh, hs, h]
    · simp [Condition.refresh, hs]

theorem updateCondition_transition_iff_status_differs_witness :
    ([1, 2, 3, 4] : List Time).Nodup ∧
    (readyStore.getCondition readyTrue.Type_ =
        some { Type_ := Ready, Status := ConditionTrue, LastProbeTime := 10,
               LastTransitionTime := 10, Reason := "reason", Message := "message" }) ∧
    (let s1 := updateCondition Status.empty (mkCondition Ready ConditionTrue "r" "m") 1
     let s2 := updateCondition s1 (mkCondition Ready ConditionTrue "r" "m") 2
     let s3 := updateCondition s2 (mkCondition Ready ConditionFalse "r" "m") 3
     let s4 := updateCondition s3 (mkCondition Ready ConditionFalse "r" "m") 4
     s1.transitionTime Ready = some 1 ∧ s2.transitionTime Ready = some 1 ∧
     s3.transitionTime Ready = some 3 ∧ s4.transitionTime Ready = some 3 ∧
     s2.transitionTime Ready = s1.transitionTime Ready ∧
     s3.transitionTime Ready ≠ s2.transitionTime Ready ∧
     s4.transitionTime Ready = s3.transitionTime Ready) :=
  ⟨by decide, by decide,
   (updateCondition_transition_iff_status_differs Ready "r" "m" 1 2 3 4 (by decide)
      readyStore
      { Type_ := Ready, Status := ConditionTrue, LastProbeTime := 10,
        LastTransitionTime := 10, Reason := "reason", Message := "message" }
      readyTrue 20 (by decide)).1⟩

/-- C3: when the store holds no condition of the new condition's type,
updateCondition appends exactly one condition at the end, carrying the given
type, status, reason and message with both timestamps equal to now; the
conditions already present keep their values and positions. -/
theorem updateCondition_absent_appends
    (s : Status) (condition : Condition) (now : Time)
    (h : ∀ c ∈ s.Conditions, c.Type_ ≠ condition.Type_) :
    (updateCondition s condition now).Conditions =
        s.Conditions ++
          [{ Type_ := condition.Type_, Status := condition.Status,
             Reason := condition.Reason, Message := condition.Message,
             LastProbeTime := now, LastTransitionTime := now }] ∧
    (updateCondition s condition now).Conditions.length = s.Conditions.length + 1 ∧
    (∀ i, i < s.Conditions.length →
        (updateCondition s condition now).Conditions.get? i = s.Conditions.get? i) := by
  have e : (updateCondition s condition now).Conditions =
      s.Conditions ++ [condition.fresh now] :=
    updateConditions_of_absent s.Conditions condition now h
  refine ⟨e, ?_, ?_⟩
  · rw [e]; simp
  · intro i hi
    rw [e]
    simp [List.getElem?_append_left hi]

theorem updateCondition_absent_appends_witness :
    (∀ c ∈ readyStore.Conditions, c.Type_ ≠ (mkCondition Reconciled ConditionFalse "r" "m").Type_) ∧
    (updateCondition readyStore (mkCondition Reconciled ConditionFalse "r" "m") 20).Conditions =
      [{ Type_ := Ready, Status := ConditionTrue, LastProbeTime := 10,
         LastTransitionTime := 10, Reason := "reason", Message := "message" },
       { Type_ := Reconciled, Status := ConditionFalse, LastProbeTime := 20,
         LastTransitionTime := 20, Reason := "r", Message := "m" }] :=
  ⟨by decide,
   (updateCondition_absent_appends readyStore (mkCondition Reconciled ConditionFalse "r" "m") 20
      (by decide)).1⟩

/-! ## The store invariant -/

theorem types_updateConditions (l : List Condition) (condition : Condition) (now : Time) :
    (updateConditions l condition now).map (fun c => c.Type_) =
      if condition.Type_ ∈ l.map (fun c => c.Type_) then l.map (fun c => c.Type_)
      else l.map (fun c => c.Type_) ++ [condition.Type_] := by
  induction l with
  | nil => simp [updateConditions, Condition.fresh]
  | cons c cs ih =>
    by_cases h : c.Type_ = condition.Type_
    · simp [updateConditions, h, Condition.refresh]
    · have h2 : ¬ condition.Type_ = c.Type_ := fun e => h e.symm
      simp only [updateConditions, h, if_false, List.map_cons, ih, List.mem_cons, h2, false_or]
      split <;> simp

theorem updateStatus_eq_updateCondition (d : Duration) (s : Status) (now : Time)
    (ensureErr : Option Error) (reconciled : Bool) :
    ∃ condition : Condition, condition.Type_ = Reconciled ∧
      (updateStatus d s now ensureErr reconciled).1 = updateCondition s condition now := by
  cases ensureErr with
  | none => cases reconciled <;> exact ⟨_, rfl, rfl⟩
  | some e =>
    obtain ⟨k, txt⟩ := e
    cases k <;> exact ⟨_, rfl, rfl⟩

theorem atMostOnePerType_updateCondition (s : Status) (condition : Condition) (now : Time)
    (h : s.atMostOnePerType) : (updateCondition s condition now).atMostOnePerType := by
  unfold Status.atMostOnePerType at *
  show ((updateConditions s.Conditions condition now).map (fun c => c.Type_)).Nodup
  rw [types_updateConditions]
  split
  · exact h
  · rename_i hn
    rw [List.nodup_append]
    refine ⟨h, List.nodup_singleton _, ?_⟩
    simpa [List.disjoint_singleton] using hn

theorem atMostOnePerType_apply (op : StoreOp) (s : Status) (h : s.atMostOnePerType) :
    (op.apply s).atMostOnePerType := by
  cases op with
  | callCondition c now => exact atMostOnePerType_updateCondition s c now h
  | callStatus d now ensureErr reconciled =>
    obtain ⟨condition, -, e⟩ := updateStatus_eq_updateCondition d s now ensureErr reconciled
    show (updateStatus d s now ensureErr reconciled).1.atMostOnePerType
    rw [e]
    exact atMostOnePerType_updateCondition s condition now h

theorem atMostOnePerType_runOps (ops : List StoreOp) (s : Status) (h : s.atMostOnePerType) :
    (runOps ops s).atMostOnePerType := by
  induction ops generalizing s with
  | nil => exact h
  | cons op ops ih => exact ih (op.apply s) (atMostOnePerType_apply op s h)

theorem atMostOnePerType_iff_filter (s : Status) :
    s.atMostOnePerType ↔
      ∀ t : ConditionType, (s.Conditions.filter (fun c => c.Type_ == t)).length ≤ 1 := by
  unfold Status.atMostOnePerType
  rw [List.nodup_iff_count_le_one]
  refine forall_congr' (fun t => ?_)
  rw [List.count, List.countP_map, List.countP_eq_length_filter]
  rfl

/-- C4: at most one condition per type is an invariant of the condition
store: updateCondition and updateStatus preserve it, the empty store has it,
and so does every store reached from the empty store by any sequence of
updateCondition and updateStatus calls. The predicate says that for every type
the store holds at most one condition of that type. -/
theorem atMostOnePerType_invariant :
    (∀ s : Status, s.atMostOnePerType ↔
      ∀ t : ConditionType, (s.Conditions.filter (fun c => c.Type_ == t)).length ≤ 1) ∧
    (∀ (s : Status) (condition : Condition) (now : Time),
      s.atMostOnePerType → (updateCondition s condition now).atMostOnePerType) ∧
    (∀ (d : Duration) (s : Status) (now : Time) (ensureErr : Option Error) (reconciled : Bool),
      s.atMostOnePerType → (updateStatus d s now ensureErr reconciled).1.atMostOnePerType) ∧
    Status.empty.atMostOnePerType ∧
    (∀ ops : List StoreOp, (runOps ops Status.empty).atMostOnePerType) := by
  have h0 : Status.empty.atMostOnePerType := List.nodup_nil
  refine ⟨atMostOnePerType_iff_filter, atMostOnePerType_updateCondition, ?_, h0, ?_⟩
  · intro d s now ensureErr reconciled h
    exact atMostOnePerType_apply (.callStatus d now ensureErr reconciled) s h
  · intro ops
    exact atMostOnePerType_runOps ops Status.empty h0

theorem atMostOnePerType_invariant_witness :
    readyStore.atMostOnePerType ∧
    (updateCondition readyStore readyTrue 20).atMostOnePerType ∧
    (updateStatus 30000000000 readyStore 20 (some ⟨.Other, "boom"⟩) false).1.atMostOnePerType ∧
    (runOps [.callCondition readyTrue 1, .callStatus 30000000000 2 none true,
             .callStatus 30000000000 3 none false] Status.empty).atMostOnePerType :=
  ⟨by decide,
   atMostOnePerType_invariant.2.1 readyStore readyTrue 20 (by decide),
   atMostOnePerType_invariant.2.2.1 30000000000 readyStore 20 (some ⟨.Other, "boom"⟩) false
     (by decide),
   atMostOnePerType_invariant.2.2.2.2 _⟩

theorem getCondition_of_mem (s : Status) (c : Condition)
    (h : s.atMostOnePerType) (hc : c ∈ s.Conditions) :
    s.getCondition c.Type_ = some c := by
  obtain ⟨l⟩ := s
  unfold Status.atMostOnePerType at h
  unfold Status.getCondition
  simp only at h hc ⊢
  induction l with
  | nil => simp at hc
  | cons x xs ih =>
    rw [List.map_cons, List.nodup_cons] at h
    rcases List.mem_cons.1 hc with e | hm
    · subst e
      simp [List.find?_cons]
    · have hx : x.Type_ ≠ c.Type_ := by
        intro e
        exact h.1 (e ▸ List.mem_map_of_mem (fun c : Condition => c.Type_) hm)
      simp [List.find?_cons, hx, ih h.2 hm]

/-! ## Status classification -/

theorem getCondition_updateCondition_fields (s : Status) (condition : Condition) (now : Time) :
    ∃ c, (updateCondition s condition now).getCondition condition.Type_ = some c ∧
      c.Status = condition.Status ∧ c.Reason = condition.Reason ∧
      c.Message = condition.Message ∧ c.LastProbeTime = now := by
  rw [getCondition_updateCondition]
  cases s.getCondition condition.Type_ with
  | none => exact ⟨_, rfl, rfl, rfl, rfl, rfl⟩
  | some c => exact ⟨_, rfl, rfl, rfl, rfl, rfl⟩

theorem reconciledIs_updateCondition (s : Status) (condition : Condition) (now : Time)
    (h : condition.Type_ = Reconciled) :
    ReconciledIs (updateCondition s condition now)
      condition.Status condition.Reason condition.Message := by
  obtain ⟨c, hc, h1, h2, h3, -⟩ := getCondition_updateCondition_fields s condition now
  rw [h] at hc
  exact ⟨c, hc, h1, h2, h3⟩

theorem wrapInt64_products (x : Int)
    (hlo : -9223372036854775808 ≤ 10 * x) (hhi : 10 * x ≤ 9223372036854775807) :
    wrapInt64 (x * 10) = 10 * x ∧ wrapInt64 (x * 4) = 4 * x ∧ wrapInt64 (x * 2) = 2 * x := by
  unfold wrapInt64
  omega

/-- C5: the requeue delay returned by updateStatus, for a base interval d whose
tenfold fits in an int64: 0 for ResourceNotFound and InvalidArguments, 10*d
for PermissionsDenied and ResourceLocked, 4*d for OutOfStock, 2*d for
QuotasExceeded, d for TransientState, 0 for any other error, d for no error
with reconciled false and 0 for no error with reconciled true; a
PermissionsDenied error at base delay 30s gives 300s and a nil error. -/
theorem updateStatus_requeue_delay (d : Duration)
    (hlo : -9223372036854775808 ≤ 10 * d) (hhi : 10 * d ≤ 9223372036854775807)
    (s : Status) (now : Time) (txt : String) (r : Bool) :
    (updateStatus d s now (some ⟨.ResourceNotFoundError, txt⟩) r).2.1 = 0 ∧
    (updateStatus d s now (some ⟨.InvalidArgumentsError, txt⟩) r).2.1 = 0 ∧
    (updateStatus d s now (some ⟨.PermissionsDeniedError, txt⟩) r).2.1 = 10 * d ∧
    (updateStatus d s now (some ⟨.ResourceLockedError, txt⟩) r).2.1 = 10 * d ∧
    (updateStatus d s now (some ⟨.OutOfStockError, txt⟩) r).2.1 = 4 * d ∧
    (updateStatus d s now (some ⟨.QuotasExceededError, txt⟩) r).2.1 = 2 * d ∧
    (updateStatus d s now (some ⟨.TransientStateError, txt⟩) r).2.1 = 1 * d ∧
    (updateStatus d s now (some ⟨.Other, txt⟩) r).2.1 = 0 ∧
    (updateStatus d s now none false).2.1 = d ∧
    (updateStatus d s now none true).2.1 = 0 ∧
    (updateStatus 30000000000 s now (some ⟨.PermissionsDeniedError, txt⟩) r).2 =
      (300000000000, none) := by
  obtain ⟨w10, w4, w2⟩ := wrapInt64_products d hlo hhi
  refine ⟨rfl, rfl, w10, w10, w4, w2, (one_mul d).symm, rfl, rfl, rfl, ?_⟩
  · show (wrapInt64 (30000000000 * 10), (none : Option Error)) = (300000000000, none)
    simp [wrapInt64]

theorem updateStatus_requeue_delay_witness :
    (-9223372036854775808 : Int) ≤ 10 * 30000000000 ∧
    (10 * 30000000000 : Int) ≤ 9223372036854775807 ∧
    (updateStatus 30000000000 readyStore 20 (some ⟨.OutOfStockError, "no stock"⟩) false).2.1 =
      4 * 30000000000 :=
  ⟨by decide, by decide,
   (updateStatus_requeue_delay 30000000000 (by decide) (by decide) readyStore 20 "no stock"
      false).2.2.2.2.1⟩

/-- C6: for each of the seven classified error kinds, every store and either
value of the reconciled flag, updateStatus returns a nil residual error and
leaves the Reconciled condition with status False, the reason code of the kind
and the error text as message. -/
theorem updateStatus_classified (d : Duration) (s : Status) (now : Time) (txt : String)
    (r : Bool) :
    ((updateStatus d s now (some ⟨.ResourceNotFoundError, txt⟩) r).2.2 = none ∧
      ReconciledIs (updateStatus d s now (some ⟨.ResourceNotFoundError, txt⟩) r).1
        ConditionFalse "ResourceNotFound" txt) ∧
    ((updateStatus d s now (some ⟨.InvalidArgumentsError, txt⟩) r).2.2 = none ∧
      ReconciledIs (updateStatus d s now (some ⟨.InvalidArgumentsError, txt⟩) r).1
        ConditionFalse "InvalidArguments" txt) ∧
    ((updateStatus d s now (some ⟨.PermissionsDeniedError, txt⟩) r).2.2 = none ∧
      ReconciledIs (updateStatus d s now (some ⟨.PermissionsDeniedError, txt⟩) r).1
        ConditionFalse "PermissionsDenied" txt) ∧
    ((updateStatus d s now (some ⟨.OutOfStockError, txt⟩) r).2.2 = none ∧
      ReconciledIs (updateStatus d s now (some ⟨.OutOfStockError, txt⟩) r).1
        ConditionFalse "OutOfStock" txt) ∧
    ((updateStatus d s now (some ⟨.QuotasExceededError, txt⟩) r).2.2 = none ∧
      ReconciledIs (updateStatus d s now (some ⟨.QuotasExceededError, txt⟩) r).1
        ConditionFalse "QuotasExceeded" txt) ∧
    ((updateStatus d s now (some ⟨.ResourceLockedError, txt⟩) r).2.2 = none ∧
      ReconciledIs (updateStatus d s now (some ⟨.ResourceLockedError, txt⟩) r).1
        ConditionFalse "ResourceLocked" txt) ∧
    ((updateStatus d s now (some ⟨.TransientStateError, txt⟩) r).2.2 = none ∧
      ReconciledIs (updateStatus d s now (some ⟨.TransientStateError, txt⟩) r).1
        ConditionFalse "TransientState" txt) :=
  ⟨⟨rfl, reconciledIs_updateCondition s _ now rfl⟩,
   ⟨rfl, reconciledIs_updateCondition s _ now rfl⟩,
   ⟨rfl, reconciledIs_updateCondition s _ now rfl⟩,
   ⟨rfl, reconciledIs_updateCondition s _ now rfl⟩,
   ⟨rfl, reconciledIs_updateCondition s _ now rfl⟩,
   ⟨rfl, reconciledIs_updateCondition s _ now rfl⟩,
   ⟨rfl, reconciledIs_updateCondition s _ now rfl⟩⟩

/-- C7: for every error that is not of one of the seven classified kinds,
updateStatus returns that same error with requeue delay 0, and the Reconciled
condition has status False and the error text as message. -/
theorem updateStatus_unclassified (d : Duration) (s : Status) (now : Time) (e : Error)
    (r : Bool) (hk : e.kind = ErrorKind.Other) :
    (updateStatus d s now (some e) r).2.2 = some e ∧
    (updateStatus d s now (some e) r).2.1 = 0 ∧
    (∃ c, (updateStatus d s now (some e) r).1.getCondition Reconciled = some c ∧
      c.Status = ConditionFalse ∧ c.Message = e.text) := by
  obtain ⟨k, txt⟩ := e
  simp only at hk
  subst hk
  refine ⟨rfl, rfl, ?_⟩
  obtain ⟨c, hc, h1, -, h3⟩ :=
    reconciledIs_updateCondition s (mkCondition Reconciled ConditionFalse "" txt) now rfl
  exact ⟨c, hc, h1, h3⟩

theorem updateStatus_unclassified_witness :
    (Error.mk ErrorKind.Other "boom").kind = ErrorKind.Other ∧
    (updateStatus 30000000000 readyStore 20 (some ⟨.Other, "boom"⟩) true).2.2 =
      some ⟨.Other, "boom"⟩ ∧
    (updateStatus 30000000000 readyStore 20 (some ⟨.Other, "boom"⟩) true).2.1 = 0 :=
  ⟨rfl,
   (updateStatus_unclassified 30000000000 readyStore 20 ⟨.Other, "boom"⟩ true rfl).1,
   (updateStatus_unclassified 30000000000 readyStore 20 ⟨.Other, "boom"⟩ true rfl).2.1⟩

/-- C8, as stated, fails: the store holds a Reconciled condition with reason
"Reconciling", and after updateStatus with an unclassified error the reason of
the Reconciled condition is the empty string. -/
theorem updateStatus_unclassified_reason_not_kept :
    (reconcilingStore.getCondition Reconciled).map (fun c => c.Reason) = some "Reconciling" ∧
    ((updateStatus 30000000000 reconcilingStore 20 (some ⟨.Other, "boom"⟩) false).1.getCondition
        Reconciled).map (fun c => c.Reason) = some "" ∧
    ((updateStatus 30000000000 reconcilingStore 20 (some ⟨.Other, "boom"⟩) false).1.getCondition
        Reconciled).map (fun c => c.Reason) ≠
      (reconcilingStore.getCondition Reconciled).map (fun c => c.Reason) := by
  decide

/-- C8, amended: for an unclassified error the reason is cleared. For every
store that holds a Reconciled condition, after updateStatus with an
unclassified error the reason of the Reconciled condition is the empty string;
it equals the previous reason only when that was empty already. -/
theorem updateStatus_unclassified_clears_reason (d : Duration) (s : Status) (now : Time)
    (e : Error) (r : Bool) (c : Condition)
    (hk : e.kind = ErrorKind.Other) (hc : s.getCondition Reconciled = some c) :
    ∃ c', (updateStatus d s now (some e) r).1.getCondition Reconciled = some c' ∧
      c'.Reason = "" ∧ (c'.Reason = c.Reason ↔ c.Reason = "") := by
  have _ := hc
  obtain ⟨k, txt⟩ := e
  simp only at hk
  subst hk
  obtain ⟨c', hc', -, h2, -⟩ :=
    reconciledIs_updateCondition s (mkCondition Reconciled ConditionFalse "" txt) now rfl
  have h2' : c'.Reason = "" := h2
  refine ⟨c', hc', h2', ?_⟩
  rw [h2']
  exact eq_comm

theorem updateStatus_unclassified_clears_reason_witness :
    (Error.mk ErrorKind.Other "boom").kind = ErrorKind.Other ∧
    (reconcilingStore.getCondition Reconciled =
      some { Type_ := Reconciled, Status := ConditionFalse, LastProbeTime := 10,
             LastTransitionTime := 10, Reason := "Reconciling",
             Message := "Still reconciling" }) ∧
    (∃ c', (updateStatus 30000000000 reconcilingStore 20 (some ⟨.Other, "boom"⟩)
        false).1.getCondition Reconciled = some c' ∧
      c'.Reason = "" ∧ (c'.Reason = "Reconciling" ↔ "Reconciling" = "")) :=
  ⟨rfl, by decide,
   updateStatus_unclassified_clears_reason 30000000000 reconcilingStore 20 ⟨.Other, "boom"⟩
     false
     { Type_ := Reconciled, Status := ConditionFalse, LastProbeTime := 10,
       LastTransitionTime := 10, Reason := "Reconciling", Message := "Still reconciling" }
     rfl (by decide)⟩

/-- C9: success path. For every store, updateStatus with no error and
reconciled true leaves the Reconciled condition with status True and empty
reason and message, and returns requeue delay 0 and a nil error. -/
theorem updateStatus_success (d : Duration) (s : Status) (now : Time) :
    ReconciledIs (updateStatus d s now none true).1 ConditionTrue "" "" ∧
    (updateStatus d s now none true).2.1 = 0 ∧
    (updateStatus d s now none true).2.2 = none :=
  ⟨reconciledIs_updateCondition s (mkCondition Reconciled ConditionTrue "" "") now rfl,
   rfl, rfl⟩

/-- C10: in-progress path. For every store, updateStatus with no error and
reconciled false leaves the Reconciled condition with status False, reason
"Reconciling" and message "Still reconciling", and returns the base interval
RequeueDuration as requeue delay and a nil error. -/
theorem updateStatus_in_progress (d : Duration) (s : Status) (now : Time) :
    ReconciledIs (updateStatus d s now none false).1 ConditionFalse "Reconciling"
      "Still reconciling" ∧
    (updateStatus d s now none false).2.1 = d ∧
    (updateStatus d s now none false).2.2 = none :=
  ⟨reconciledIs_updateCondition s
     (mkCondition Reconciled ConditionFalse "Reconciling" "Still reconciling") now rfl,
   rfl, rfl⟩

/-! ## One pass of Reconcile -/

theorem setOwnersLoop_trace (env : Env) (owners : List Owner) (obj : Object) (tr : List Call) :
    ∃ ext, (setOwnersLoop env owners obj tr).2 = tr ++ ext ∧
      ∀ c ∈ ext, c.isOwnerStep = true := by
  induction owners generalizing obj tr with
  | nil => exact ⟨[], by simp [setOwnersLoop], by simp⟩
  | cons owner rest ih =>
    unfold setOwnersLoop
    cases hg : env.GetOwner tr owner with
    | error e =>
      obtain ⟨ext, h1, h2⟩ := ih obj (tr ++ [Call.GetOwner owner])
      refine ⟨Call.GetOwner owner :: ext, by simp [h1], ?_⟩
      intro c hc
      rcases List.mem_cons.1 hc with rfl | hc
      · rfl
      · exact h2 c hc
    | ok ownerObj =>
      dsimp only
      cases ha : env.Accessor ownerObj with
      | some e =>
        obtain ⟨ext, h1, h2⟩ := ih obj (tr ++ [Call.GetOwner owner])
        refine ⟨Call.GetOwner owner :: ext, by simp [h1], ?_⟩
        intro c hc
        rcases List.mem_cons.1 hc with rfl | hc
        · rfl
        · exact h2 c hc
      | none =>
        dsimp only
        cases hs : (env.SetControllerReference ownerObj obj).2 with
        | some e =>
          obtain ⟨ext, h1, h2⟩ := ih (env.SetControllerReference ownerObj obj).1
            (tr ++ [Call.GetOwner owner] ++ [Call.SetControllerReference ownerObj obj])
          refine ⟨Call.GetOwner owner :: Call.SetControllerReference ownerObj obj :: ext,
            by rw [h1]; simp, ?_⟩
          intro c hc
          rcases List.mem_cons.1 hc with rfl | hc
          · rfl
          · rcases List.mem_cons.1 hc with rfl | hc
            · rfl
            · exact h2 c hc
        | none =>
          dsimp only
          cases hu : (env.Update
              (tr ++ [Call.GetOwner owner] ++ [Call.SetControllerReference ownerObj obj])
              (env.SetControllerReference ownerObj obj).1).2 with
          | some e =>
            obtain ⟨ext, h1, h2⟩ := ih
              (env.Update
                (tr ++ [Call.GetOwner owner] ++ [Call.SetControllerReference ownerObj obj])
                (env.SetControllerReference ownerObj obj).1).1
              (tr ++ [Call.GetOwner owner] ++ [Call.SetControllerReference ownerObj obj] ++
                [Call.Update (env.SetControllerReference ownerObj obj).1])
            refine ⟨Call.GetOwner owner :: Call.SetControllerReference ownerObj obj ::
              Call.Update (env.SetControllerReference ownerObj obj).1 :: ext,
              by rw [h1]; simp, ?_⟩
            intro c hc
            rcases List.mem_cons.1 hc with rfl | hc
            · rfl
            · rcases List.mem_cons.1 hc with rfl | hc
              · rfl
              · rcases List.mem_cons.1 hc with rfl | hc
                · rfl
                · exact h2 c hc
          | none =>
            refine ⟨[Call.GetOwner owner, Call.SetControllerReference ownerObj obj,
              Call.Update (env.SetControllerReference ownerObj obj).1], by simp, ?_⟩
            intro c hc
            simp only [List.mem_cons, List.mem_singleton, List.not_mem_nil, or_false] at hc
            rcases hc with rfl | rfl | rfl <;> rfl

theorem setOwners_of_error (env : Env) (obj : Object) (tr : List Call) (err : Error)
    (h : (env.GetOwners tr obj).2 = some err) :
    setOwners env obj tr = (some err, obj, tr ++ [Call.GetOwners obj]) := by
  simp [setOwners, h]

theorem setOwners_of_ok (env : Env) (obj : Object) (tr : List Call)
    (h : (env.GetOwners tr obj).2 = none) :
    ∃ obj1 ext, setOwners env obj tr = (none, obj1, tr ++ [Call.GetOwners obj] ++ ext) ∧
      ∀ c ∈ ext, c.isOwnerStep = true := by
  obtain ⟨ext, h1, h2⟩ :=
    setOwnersLoop_trace env (env.GetOwners tr obj).1 obj (tr ++ [Call.GetOwners obj])
  refine ⟨(setOwnersLoop env (env.GetOwners tr obj).1 obj (tr ++ [Call.GetOwners obj])).1,
    ext, ?_, h2⟩
  simp [setOwners, h, h1]

theorem ensureAndPersist_trace (env : Env) (obj : Object) (tr : List Call) :
    (ensureAndPersist env obj tr).trace =
      tr ++ [Call.Ensure obj, Call.StatusUpdate (ensuredObject env obj tr)] := by
  unfold ensureAndPersist ensuredObject
  simp only
  split <;> simp

theorem reconcileEnsure_of_error (env : Env) (obj : Object) (tr : List Call) (err : Error)
    (h : (env.GetOwners tr obj).2 = some err) :
    reconcileEnsure env obj tr =
      { RequeueAfter := 0, err := some err, trace := tr ++ [Call.GetOwners obj] } := by
  simp [reconcileEnsure, setOwners_of_error env obj tr err h]

theorem reconcileEnsure_of_ok (env : Env) (obj : Object) (tr : List Call)
    (h : (env.GetOwners tr obj).2 = none) :
    ∃ obj1 ext, (∀ c ∈ ext, c.isOwnerStep = true) ∧
      reconcileEnsure env obj tr =
        ensureAndPersist env obj1 (tr ++ [Call.GetOwners obj] ++ ext) := by
  obtain ⟨obj1, ext, h1, h2⟩ := setOwners_of_ok env obj tr h
  exact ⟨obj1, ext, h2, by simp [reconcileEnsure, h1]⟩

theorem isPrelude_of_isOwnerStep (c : Call) (h : c.isOwnerStep = true) : c.isPrelude = true := by
  cases c <;> simp_all [Call.isOwnerStep, Call.isPrelude]

theorem isPrelude_facts (c : Call) (h : c.isPrelude = true) :
    c.isEnsure = false ∧ c.isStatusUpdate = false ∧ c.isDelete = false ∧
      c ≠ Call.RemoveFinalizer := by
  cases c <;> simp_all [Call.isPrelude, Call.isEnsure, Call.isStatusUpdate, Call.isDelete]

theorem any_isEnsure_of_prelude (tr : List Call) (h : ∀ c ∈ tr, c.isPrelude = true) :
    tr.any Call.isEnsure = false := by
  rw [List.any_eq_false]
  intro c hc
  simp [(isPrelude_facts c (h c hc)).1]

theorem reconcileEnsure_reaches (env : Env) (obj : Object) (tr : List Call)
    (htr : ∀ c ∈ tr, c.isPrelude = true)
    (h : (reconcileEnsure env obj tr).trace.any Call.isEnsure = true) :
    (env.GetOwners tr obj).2 = none ∧
    ∃ obj1 tr1, reconcileEnsure env obj tr = ensureAndPersist env obj1 tr1 ∧
      ∀ c ∈ tr1, c.isPrelude = true := by
  cases ho : (env.GetOwners tr obj).2 with
  | some err =>
    rw [reconcileEnsure_of_error env obj tr err ho] at h
    have h0 := any_isEnsure_of_prelude tr htr
    simp [List.any_append, h0, Call.isEnsure] at h
  | none =>
    obtain ⟨obj1, ext, h1, h2⟩ := reconcileEnsure_of_ok env obj tr ho
    refine ⟨rfl, obj1, _, h2, ?_⟩
    intro c hc
    simp only [List.mem_append, List.mem_singleton] at hc
    rcases hc with (hc | rfl) | hc
    · exact htr c hc
    · rfl
    · exact isPrelude_of_isOwnerStep c (h1 c hc)

theorem reconcile_of_fetched (env : Env) (obj : Object)
    (hget : env.Get = .ok obj) (hacc : env.Accessor obj = none) :
    Reconcile env =
      if isIgnored env obj then reconcileIgnored env obj [Call.Get]
      else reconcileActive env obj [Call.Get] := by
  simp [Reconcile, hget, hacc]

theorem reconcile_reaches_ensure (env : Env)
    (h : (Reconcile env).trace.any Call.isEnsure = true) :
    ∃ obj tr, Reconcile env = ensureAndPersist env obj tr ∧
      (∀ c ∈ tr, c.isPrelude = true) ∧
      ∃ o, env.Get = .ok o ∧ env.Accessor o = none ∧ isIgnored env o = false ∧
        o.deletionTimestampIsZero = true := by
  cases hget : env.Get with
  | error err => simp [Reconcile, hget, Call.isEnsure] at h
  | ok o =>
    cases hacc : env.Accessor o with
    | some err => simp [Reconcile, hget, hacc, Call.isEnsure] at h
    | none =>
      rw [reconcile_of_fetched env o hget hacc] at h ⊢
      cases hign : isIgnored env o with
      | true =>
        simp only [hign, if_true, reconcileIgnored] at h
        split at h <;> simp [Call.isEnsure] at h
      | false =>
        simp only [hign, Bool.false_eq_true, if_false] at h ⊢
        cases hdel : o.deletionTimestampIsZero with
        | false =>
          exfalso
          simp only [reconcileActive, hdel, Bool.false_eq_true, if_false] at h
          split at h
          · split at h
            · simp [Call.isEnsure] at h
            · split at h <;> simp [Call.isEnsure] at h
          · simp [Call.isEnsure] at h
        | true =>
          have hG : ∀ c ∈ [Call.Get], c.isPrelude = true := by
            intro c hc
            rw [List.mem_singleton] at hc
            subst hc
            rfl
          cases hfin : ContainsFinalizer o finalizerName with
          | true =>
            simp only [reconcileActive, hdel, hfin, if_true, Bool.not_true,
              Bool.false_eq_true, if_false] at h ⊢
            obtain ⟨-, obj1, tr1, h1, h2⟩ := reconcileEnsure_reaches env o [Call.Get] hG h
            exact ⟨obj1, tr1, h1, h2, o, rfl, hacc, hign, hdel⟩
          | false =>
            simp only [reconcileActive, hdel, hfin, if_true, Bool.not_false] at h ⊢
            cases hu : (env.Update ([Call.Get] ++ [Call.AddFinalizer])
                (AddFinalizer o finalizerName)).2 with
            | some err =>
              simp only [hu] at h
              simp [Call.isEnsure] at h
            | none =>
              simp only [hu] at h ⊢
              have hP : ∀ c ∈ [Call.Get] ++ [Call.AddFinalizer] ++
                  [Call.Update (AddFinalizer o finalizerName)], c.isPrelude = true := by
                intro c hc
                simp only [List.mem_append, List.mem_singleton] at hc
                rcases hc with (rfl | rfl) | rfl <;> rfl
              obtain ⟨-, obj1, tr1, h1, h2⟩ := reconcileEnsure_reaches env _ _ hP h
              exact ⟨obj1, tr1, h1, h2, o, rfl, hacc, hign, hdel⟩

/-- C11, as stated, fails: the fetched object has no finalizer, no deletion
timestamp and no annotation, every call succeeds, and the pass, after adding
the finalizer and persisting the object, goes on to GetOwners and Ensure. -/
theorem reconcile_fresh_object_reaches_ensure :
    freshObject.Finalizers = [] ∧ freshObject.DeletionTimestamp = none ∧
    freshObject.Annotations = [] ∧
    (Reconcile (quietEnv freshObject)).trace.any Call.isEnsure = true ∧
    (Reconcile (quietEnv freshObject)).trace.map Call.isDriver =
      [false, false, false, true, true, false] := by
  decide

/-- C11, amended: for a fetched object with no finalizer, no deletion
timestamp and not ignored, the pass first adds the finalizer and persists the
object, before any driver operation. When that write fails the pass ends
there, with the write error, zero delay and no driver operation. When it
succeeds the pass goes on, in the same pass, to owner linking and Ensure:
Ensure is invoked exactly when the write and GetOwners both succeed. -/
theorem reconcile_adds_finalizer_first (env : Env) (obj : Object)
    (hget : env.Get = .ok obj) (hacc : env.Accessor obj = none)
    (hign : isIgnored env obj = false)
    (hdel : obj.deletionTimestampIsZero = true)
    (hfin : ContainsFinalizer obj finalizerName = false) :
    ContainsFinalizer (AddFinalizer obj finalizerName) finalizerName = true ∧
    (∃ rest, (Reconcile env).trace =
      [Call.Get, Call.AddFinalizer, Call.Update (AddFinalizer obj finalizerName)] ++ rest) ∧
    (∀ err, (env.Update [Call.Get, Call.AddFinalizer] (AddFinalizer obj finalizerName)).2 =
        some err →
      Reconcile env =
        { RequeueAfter := 0, err := some err,
          trace := [Call.Get, Call.AddFinalizer,
                    Call.Update (AddFinalizer obj finalizerName)] }) ∧
    ((env.Update [Call.Get, Call.AddFinalizer] (AddFinalizer obj finalizerName)).2 = none →
      Reconcile env =
        reconcileEnsure env
          (env.Update [Call.Get, Call.AddFinalizer] (AddFinalizer obj finalizerName)).1
          [Call.Get, Call.AddFinalizer, Call.Update (AddFinalizer obj finalizerName)]) ∧
    ((Reconcile env).trace.any Call.isEnsure = true ↔
      (env.Update [Call.Get, Call.AddFinalizer] (AddFinalizer obj finalizerName)).2 = none ∧
      (env.GetOwners
        [Call.Get, Call.AddFinalizer, Call.Update (AddFinalizer obj finalizerName)]
        (env.Update [Call.Get, Call.AddFinalizer] (AddFinalizer obj finalizerName)).1).2 =
          none) := by
  have hP : ∀ c ∈ [Call.Get, Call.AddFinalizer, Call.Update (AddFinalizer obj finalizerName)],
      c.isPrelude = true := by
    intro c hc
    simp only [List.mem_cons, List.mem_singleton, List.not_mem_nil, or_false] at hc
    rcases hc with rfl | rfl | rfl <;> rfl
  have hR : Reconcile env =
      match (env.Update [Call.Get, Call.AddFinalizer] (AddFinalizer obj finalizerName)).2 with
      | some err =>
        { RequeueAfter := 0, err := some err,
          trace := [Call.Get, Call.AddFinalizer,
                    Call.Update (AddFinalizer obj finalizerName)] }
      | none =>
        reconcileEnsure env
          (env.Update [Call.Get, Call.AddFinalizer] (AddFinalizer obj finalizerName)).1
          [Call.Get, Call.AddFinalizer, Call.Update (AddFinalizer obj finalizerName)] := by
    rw [reconcile_of_fetched env obj hget hacc]
    simp [hign, reconcileActive, hdel, hfin]
  have hFail : ∀ err,
      (env.Update [Call.Get, Call.AddFinalizer] (AddFinalizer obj finalizerName)).2 = some err →
      Reconcile env =
        { RequeueAfter := 0, err := some err,
          trace := [Call.Get, Call.AddFinalizer,
                    Call.Update (AddFinalizer obj finalizerName)] } := by
    intro err he
    rw [hR, he]
  have hOk :
      (env.Update [Call.Get, Call.AddFinalizer] (AddFinalizer obj finalizerName)).2 = none →
      Reconcile env =
        reconcileEnsure env
          (env.Update [Call.Get, Call.AddFinalizer] (AddFinalizer obj finalizerName)).1
          [Call.Get, Call.AddFinalizer, Call.Update (AddFinalizer obj finalizerName)] := by
    intro he
    rw [hR, he]
  refine ⟨?_, ?_, hFail, hOk, ?_⟩
  · unfold ContainsFinalizer AddFinalizer
    split
    · assumption
    · simp
  · cases he : (env.Update [Call.Get, Call.AddFinalizer] (AddFinalizer obj finalizerName)).2 with
    | some err => exact ⟨[], by rw [hFail err he]; simp⟩
    | none =>
      rw [hOk he]
      cases ho : (env.GetOwners
          [Call.Get, Call.AddFinalizer, Call.Update (AddFinalizer obj finalizerName)]
          (env.Update [Call.Get, Call.AddFinalizer] (AddFinalizer obj finalizerName)).1).2 with
      | some err =>
        rw [reconcileEnsure_of_error env _ _ err ho]
        exact ⟨_, rfl⟩
      | none =>
        obtain ⟨obj1, ext, -, h2⟩ := reconcileEnsure_of_ok env _ _ ho
        rw [h2, ensureAndPersist_trace]
        simp only [List.append_assoc]
        exact ⟨_, rfl⟩
  · constructor
    · intro h
      cases he : (env.Update [Call.Get, Call.AddFinalizer] (AddFinalizer obj finalizerName)).2 with
      | some err =>
        rw [hFail err he] at h
        simp [Call.isEnsure] at h
      | none =>
        rw [hOk he] at h
        exact ⟨rfl, (reconcileEnsure_reaches env _ _ hP h).1⟩
    · rintro ⟨he, ho⟩
      rw [hOk he]
      obtain ⟨obj1, ext, -, h2⟩ := reconcileEnsure_of_ok env _ _ ho
      rw [h2, ensureAndPersist_trace]
      simp [Call.isEnsure]

theorem reconcile_adds_finalizer_first_witness :
    (quietEnv freshObject).Get = .ok freshObject ∧
    (quietEnv freshObject).Accessor freshObject = none ∧
    isIgnored (quietEnv freshObject) freshObject = false ∧
    freshObject.deletionTimestampIsZero = true ∧
    ContainsFinalizer freshObject finalizerName = false ∧
    ContainsFinalizer (AddFinalizer freshObject finalizerName) finalizerName = true :=
  ⟨rfl, rfl, by decide, by decide, by decide,
   (reconcile_adds_finalizer_first (quietEnv freshObject) freshObject rfl rfl
      (by decide) (by decide) (by decide)).1⟩

/-- C12: for every fetched object whose deletion timestamp is set, whatever
its finalizers and annotations and whatever the driver and the store return,
the pass never invokes Ensure, and the only driver operation it invokes, if
any, is Delete. -/
theorem reconcile_deleting_never_ensures (env : Env) (obj : Object)
    (hget : env.Get = .ok obj) (hdel : obj.deletionTimestampIsZero = false) :
    (Reconcile env).trace.any Call.isEnsure = false ∧
    (∀ c ∈ (Reconcile env).trace, c.isDriver = true → c.isDelete = true) := by
  cases hacc : env.Accessor obj with
  | some err => simp [Reconcile, hget, hacc, Call.isEnsure, Call.isDriver]
  | none =>
    rw [reconcile_of_fetched env obj hget hacc]
    cases hign : isIgnored env obj with
    | true => simp [reconcileIgnored, hdel, Call.isEnsure, Call.isDriver]
    | false =>
      simp only [reconcileActive, hdel, Bool.false_eq_true, if_false]
      split
      · split
        · simp [Call.isEnsure, Call.isDriver, Call.isDelete]
        · split <;> simp [Call.isEnsure, Call.isDriver, Call.isDelete]
      · simp [Call.isEnsure, Call.isDriver]

theorem reconcile_deleting_never_ensures_witness :
    (quietEnv deletingObject).Get = .ok deletingObject ∧
    deletingObject.deletionTimestampIsZero = false ∧
    (Reconcile (quietEnv deletingObject)).trace.any Call.isEnsure = false :=
  ⟨rfl, by decide,
   (reconcile_deleting_never_ensures (quietEnv deletingObject) deletingObject rfl
      (by decide)).1⟩

/-- C13: for every fetched object whose ignore annotation is "true" up to
case, the pass invokes no driver operation and no status write, even when
deletion is requested. The only change it makes to the object is removing the
finalizer when the deletion timestamp is set; it then emits the Ignoring event,
persists the object and returns zero delay with the result of that write. -/
theorem reconcile_ignored_short_circuit (env : Env) (obj : Object) (v : String)
    (hget : env.Get = .ok obj) (hacc : env.Accessor obj = none)
    (hann : obj.Annotations.lookup ignoreAnnotation = some v)
    (hv : env.ToLower v = "true") :
    (obj.deletionTimestampIsZero = true →
      Reconcile env =
        { RequeueAfter := 0
          err := (env.Update
            [Call.Get, Call.Event "Normal" "Ignoring" "Ignoring object based on annotation"]
            obj).2
          trace := [Call.Get,
            Call.Event "Normal" "Ignoring" "Ignoring object based on annotation",
            Call.Update obj] }) ∧
    (obj.deletionTimestampIsZero = false →
      Reconcile env =
        { RequeueAfter := 0
          err := (env.Update
            [Call.Get, Call.RemoveFinalizer,
             Call.Event "Normal" "Ignoring" "Ignoring object based on annotation"]
            (RemoveFinalizer obj finalizerName)).2
          trace := [Call.Get, Call.RemoveFinalizer,
            Call.Event "Normal" "Ignoring" "Ignoring object based on annotation",
            Call.Update (RemoveFinalizer obj finalizerName)] }) ∧
    (∀ c ∈ (Reconcile env).trace, c.isDriver = false ∧ c.isStatusUpdate = false) ∧
    (RemoveFinalizer obj finalizerName).Annotations = obj.Annotations ∧
    (RemoveFinalizer obj finalizerName).DeletionTimestamp = obj.DeletionTimestamp ∧
    (RemoveFinalizer obj finalizerName).Status = obj.Status ∧
    (RemoveFinalizer obj finalizerName).Rest = obj.Rest ∧
    (∀ f, f ∈ (RemoveFinalizer obj finalizerName).Finalizers ↔
      f ∈ obj.Finalizers ∧ f ≠ finalizerName) := by
  have hign : isIgnored env obj = true := by simp [isIgnored, hann, hv]
  have hR : Reconcile env = reconcileIgnored env obj [Call.Get] := by
    rw [reconcile_of_fetched env obj hget hacc, hign]
    rfl
  refine ⟨?_, ?_, ?_, rfl, rfl, rfl, rfl, ?_⟩
  · intro hz
    rw [hR]
    simp [reconcileIgnored, hz]
  · intro hz
    rw [hR]
    simp [reconcileIgnored, hz]
  · rw [hR]
    cases hz : obj.deletionTimestampIsZero <;>
      simp [reconcileIgnored, hz, Call.isDriver, Call.isStatusUpdate]
  · intro f
    simp [RemoveFinalizer]

theorem reconcile_ignored_short_circuit_witness :
    (quietEnv ignoredDeletingObject).Get = .ok ignoredDeletingObject ∧
    (quietEnv ignoredDeletingObject).Accessor ignoredDeletingObject = none ∧
    ignoredDeletingObject.Annotations.lookup ignoreAnnotation = some "True" ∧
    (quietEnv ignoredDeletingObject).ToLower "True" = "true" ∧
    (∀ c ∈ (Reconcile (quietEnv ignoredDeletingObject)).trace,
      c.isDriver = false ∧ c.isStatusUpdate = false) :=
  ⟨rfl, rfl, by decide, by decide,
   (reconcile_ignored_short_circuit (quietEnv ignoredDeletingObject) ignoredDeletingObject
      "True" rfl rfl (by decide) (by decide)).2.2.1⟩

theorem reconcileEnsure_no_removeFinalizer (env : Env) (obj : Object) (tr : List Call)
    (htr : ∀ c ∈ tr, c.isPrelude = true) :
    Call.RemoveFinalizer ∉ (reconcileEnsure env obj tr).trace := by
  have hno : ∀ l : List Call, (∀ c ∈ l, c.isPrelude = true) → Call.RemoveFinalizer ∉ l := by
    intro l hl hmem
    exact (isPrelude_facts _ (hl _ hmem)).2.2.2 rfl
  cases ho : (env.GetOwners tr obj).2 with
  | some err =>
    rw [reconcileEnsure_of_error env obj tr err ho]
    intro hmem
    simp only [List.mem_append, List.mem_singleton] at hmem
    rcases hmem with hmem | hmem
    · exact hno tr htr hmem
    · cases hmem
  | none =>
    obtain ⟨obj1, ext, h1, h2⟩ := reconcileEnsure_of_ok env obj tr ho
    rw [h2, ensureAndPersist_trace]
    intro hmem
    simp only [List.mem_append, List.mem_singleton, List.mem_cons, List.not_mem_nil,
      or_false] at hmem
    rcases hmem with ((hmem | hmem) | hmem) | hmem | hmem
    · exact hno tr htr hmem
    · cases hmem
    · exact hno ext (fun c hc => isPrelude_of_isOwnerStep c (h1 c hc)) hmem
    · cases hmem
    · cases hmem

/-- C14, as stated, fails: the object carries the finalizer and is neither
ignored nor being deleted, the driver's GetOwners returns an error, and the
pass returns that error without invoking Ensure. -/
theorem reconcile_getOwners_error_fails_pass :
    Reconcile ownersFailEnv =
      { RequeueAfter := 0, err := some ⟨.Other, "no owners"⟩,
        trace := [Call.Get, Call.GetOwners managedObject] } ∧
    (Reconcile ownersFailEnv).trace.any Call.isEnsure = false := by
  decide

/-- C14, amended: owner linking never fails the pass once GetOwners has
succeeded. For every outcome of fetching, referencing or persisting any owner
candidate, the pass returns no error because of these steps and goes on to
invoke Ensure; when GetOwners itself returns an error, the pass returns that
error with zero delay and does not invoke Ensure. -/
theorem reconcile_owner_candidates_never_fail (env : Env) (obj : Object)
    (hget : env.Get = .ok obj) (hacc : env.Accessor obj = none)
    (hign : isIgnored env obj = false)
    (hdel : obj.deletionTimestampIsZero = true)
    (hfin : ContainsFinalizer obj finalizerName = true) :
    Reconcile env = reconcileEnsure env obj [Call.Get] ∧
    ((env.GetOwners [Call.Get] obj).2 = none →
      (Reconcile env).trace.any Call.isEnsure = true ∧
      ∃ obj1 ext, (∀ c ∈ ext, c.isOwnerStep = true) ∧
        Reconcile env =
          ensureAndPersist env obj1 ([Call.Get] ++ [Call.GetOwners obj] ++ ext)) ∧
    (∀ err, (env.GetOwners [Call.Get] obj).2 = some err →
      Reconcile env =
        { RequeueAfter := 0, err := some err, trace := [Call.Get, Call.GetOwners obj] }) ∧
    (∀ (obj2 : Object) (tr : List Call), (env.GetOwners tr obj2).2 = none →
      ∃ obj1 ext, (∀ c ∈ ext, c.isOwnerStep = true) ∧
        reconcileEnsure env obj2 tr =
          ensureAndPersist env obj1 (tr ++ [Call.GetOwners obj2] ++ ext) ∧
        Call.Ensure obj1 ∈ (reconcileEnsure env obj2 tr).trace) := by
  have hR : Reconcile env = reconcileEnsure env obj [Call.Get] := by
    rw [reconcile_of_fetched env obj hget hacc]
    simp [hign, reconcileActive, hdel, hfin]
  refine ⟨hR, ?_, ?_, ?_⟩
  · intro ho
    obtain ⟨obj1, ext, h1, h2⟩ := reconcileEnsure_of_ok env obj [Call.Get] ho
    refine ⟨?_, obj1, ext, h1, hR.trans h2⟩
    rw [hR, h2, ensureAndPersist_trace]
    simp [Call.isEnsure]
  · intro err ho
    rw [hR, reconcileEnsure_of_error env obj [Call.Get] err ho]
    rfl
  · intro obj2 tr ho
    obtain ⟨obj1, ext, h1, h2⟩ := reconcileEnsure_of_ok env obj2 tr ho
    refine ⟨obj1, ext, h1, h2, ?_⟩
    rw [h2, ensureAndPersist_trace]
    simp

theorem reconcile_owner_candidates_never_fail_witness :
    (quietEnv managedObject).Get = .ok managedObject ∧
    (quietEnv managedObject).Accessor managedObject = none ∧
    isIgnored (quietEnv managedObject) managedObject = false ∧
    managedObject.deletionTimestampIsZero = true ∧
    ContainsFinalizer managedObject finalizerName = true ∧
    Reconcile (quietEnv managedObject) =
      reconcileEnsure (quietEnv managedObject) managedObject [Call.Get] :=
  ⟨rfl, rfl, by decide, by decide, by decide,
   (reconcile_owner_candidates_never_fail (quietEnv managedObject) managedObject rfl rfl
      (by decide) (by decide) (by decide)).1⟩

/-- C15, as stated, fails: for an ignored object that is being deleted the
pass removes the finalizer and persists the object without invoking the
driver's Delete. -/
theorem reconcile_ignored_removes_finalizer_without_delete :
    ContainsFinalizer ignoredDeletingObject finalizerName = true ∧
    Call.RemoveFinalizer ∈ (Reconcile (quietEnv ignoredDeletingObject)).trace ∧
    (Reconcile (quietEnv ignoredDeletingObject)).trace.any Call.isDelete = false ∧
    Call.Update (RemoveFinalizer ignoredDeletingObject finalizerName) ∈
      (Reconcile (quietEnv ignoredDeletingObject)).trace ∧
    ContainsFinalizer (RemoveFinalizer ignoredDeletingObject finalizerName) finalizerName =
      false := by
  decide

/-- C15, amended: in every pass in which the finalizer is removed, the object
is being deleted and either it is ignored, and then no driver operation is
invoked, or it is not ignored and the driver's Delete was invoked in that pass
and returned (true, nil). -/
theorem reconcile_removes_finalizer_only_when (env : Env)
    (h : Call.RemoveFinalizer ∈ (Reconcile env).trace) :
    ∃ obj, env.Get = .ok obj ∧ env.Accessor obj = none ∧
      obj.deletionTimestampIsZero = false ∧
      ((isIgnored env obj = true ∧ ∀ c ∈ (Reconcile env).trace, c.isDriver = false) ∨
       (isIgnored env obj = false ∧ Call.Delete obj ∈ (Reconcile env).trace ∧
        (env.Delete [Call.Get] obj).2 = (true, none))) := by
  cases hget : env.Get with
  | error err => simp [Reconcile, hget] at h
  | ok o =>
    cases hacc : env.Accessor o with
    | some err => simp [Reconcile, hget, hacc] at h
    | none =>
      rw [reconcile_of_fetched env o hget hacc] at h ⊢
      refine ⟨o, rfl, hacc, ?_⟩
      cases hign : isIgnored env o with
      | true =>
        simp only [hign, if_true] at h ⊢
        cases hdel : o.deletionTimestampIsZero with
        | true => simp [reconcileIgnored, hdel] at h
        | false =>
          refine ⟨rfl, Or.inl ⟨trivial, ?_⟩⟩
          simp [reconcileIgnored, hdel, Call.isDriver]
      | false =>
        simp only [hign, Bool.false_eq_true, if_false] at h ⊢
        have hG : ∀ c ∈ [Call.Get], c.isPrelude = true := by
          intro c hc
          rw [List.mem_singleton] at hc
          subst hc
          rfl
        cases hdel : o.deletionTimestampIsZero with
        | true =>
          exfalso
          cases hfin : ContainsFinalizer o finalizerName with
          | true =>
            simp only [reconcileActive, hdel, hfin, if_true, Bool.not_true,
              Bool.false_eq_true, if_false] at h
            exact reconcileEnsure_no_removeFinalizer env o [Call.Get] hG h
          | false =>
            simp only [reconcileActive, hdel, hfin, if_true, Bool.not_false] at h
            cases hu : (env.Update ([Call.Get] ++ [Call.AddFinalizer])
                (AddFinalizer o finalizerName)).2 with
            | some err =>
              simp only [hu] at h
              simp at h
            | none =>
              simp only [hu] at h
              have hP : ∀ c ∈ [Call.Get] ++ [Call.AddFinalizer] ++
                  [Call.Update (AddFinalizer o finalizerName)], c.isPrelude = true := by
                intro c hc
                simp only [List.mem_append, List.mem_singleton] at hc
                rcases hc with (rfl | rfl) | rfl <;> rfl
              exact reconcileEnsure_no_removeFinalizer env _ _ hP h
        | false =>
          refine ⟨rfl, Or.inr ⟨trivial, ?_⟩⟩
          simp only [reconcileActive, hdel, Bool.false_eq_true, if_false] at h ⊢
          cases hfin : ContainsFinalizer o finalizerName with
          | false => simp [hfin] at h
          | true =>
            simp only [hfin, if_true] at h ⊢
            cases he : (env.Delete [Call.Get] o).2.2 with
            | some err => simp [he] at h
            | none =>
              simp only [he] at h ⊢
              cases hd : (env.Delete [Call.Get] o).2.1 with
              | false => simp [hd] at h
              | true =>
                refine ⟨by simp, ?_⟩
                exact Prod.ext hd he

theorem reconcile_removes_finalizer_only_when_witness :
    Call.RemoveFinalizer ∈ (Reconcile (quietEnv ignoredDeletingObject)).trace ∧
    ∃ obj, (quietEnv ignoredDeletingObject).Get = .ok obj ∧
      (quietEnv ignoredDeletingObject).Accessor obj = none ∧
      obj.deletionTimestampIsZero = false ∧
      ((isIgnored (quietEnv ignoredDeletingObject) obj = true ∧
        ∀ c ∈ (Reconcile (quietEnv ignoredDeletingObject)).trace, c.isDriver = false) ∨
       (isIgnored (quietEnv ignoredDeletingObject) obj = false ∧
        Call.Delete obj ∈ (Reconcile (quietEnv ignoredDeletingObject)).trace ∧
        ((quietEnv ignoredDeletingObject).Delete [Call.Get] obj).2 = (true, none))) :=
  ⟨by decide, reconcile_removes_finalizer_only_when (quietEnv ignoredDeletingObject) (by decide)⟩

/-- C16: for an object being deleted that carries the finalizer and is not
ignored. When Delete returns (false, nil) the pass removes no finalizer,
writes the status subresource of the object exactly as Delete left it, without
calling updateStatus, and requests the base interval as requeue delay. When
Delete returns an error the pass returns that error with zero delay and makes
no object or status write. -/
theorem reconcile_delete_pending_or_failed (env : Env) (obj : Object)
    (hget : env.Get = .ok obj) (hacc : env.Accessor obj = none)
    (hign : isIgnored env obj = false)
    (hdel : obj.deletionTimestampIsZero = false)
    (hfin : ContainsFinalizer obj finalizerName = true) :
    ((env.Delete [Call.Get] obj).2 = (false, none) →
      Reconcile env =
        { RequeueAfter := env.RequeueDuration
          err := (env.StatusUpdate [Call.Get, Call.Delete obj] (env.Delete [Call.Get] obj).1).2
          trace := [Call.Get, Call.Delete obj,
                    Call.StatusUpdate (env.Delete [Call.Get] obj).1] } ∧
      Call.RemoveFinalizer ∉ (Reconcile env).trace ∧
      ((env.Delete [Call.Get] obj).1 = obj →
        Call.StatusUpdate obj ∈ (Reconcile env).trace ∧
        ContainsFinalizer (env.Delete [Call.Get] obj).1 finalizerName = true ∧
        (env.Delete [Call.Get] obj).1.Status = obj.Status)) ∧
    (∀ b err, (env.Delete [Call.Get] obj).2 = (b, some err) →
      Reconcile env =
        { RequeueAfter := 0, err := some err, trace := [Call.Get, Call.Delete obj] } ∧
      (Reconcile env).trace.any Call.isWrite = false) := by
  have hR : Reconcile env = reconcileActive env obj [Call.Get] := by
    rw [reconcile_of_fetched env obj hget hacc, hign]
    rfl
  constructor
  · intro hd
    have h1 : (env.Delete [Call.Get] obj).2.1 = false := by rw [hd]
    have h2 : (env.Delete [Call.Get] obj).2.2 = none := by rw [hd]
    have hE : Reconcile env =
        { RequeueAfter := env.RequeueDuration
          err := (env.StatusUpdate [Call.Get, Call.Delete obj] (env.Delete [Call.Get] obj).1).2
          trace := [Call.Get, Call.Delete obj,
                    Call.StatusUpdate (env.Delete [Call.Get] obj).1] } := by
      rw [hR]
      simp [reconcileActive, hdel, hfin, h1, h2]
    refine ⟨hE, ?_, ?_⟩
    · rw [hE]
      simp
    · intro hsame
      rw [hE, hsame]
      exact ⟨by simp, hfin, rfl⟩
  · intro b err hd
    have h2 : (env.Delete [Call.Get] obj).2.2 = some err := by rw [hd]
    have hE : Reconcile env =
        { RequeueAfter := 0, err := some err, trace := [Call.Get, Call.Delete obj] } := by
      rw [hR]
      simp [reconcileActive, hdel, hfin, h2]
    refine ⟨hE, ?_⟩
    rw [hE]
    simp [Call.isWrite]

theorem reconcile_delete_pending_or_failed_witness :
    (quietEnv deletingObject).Get = .ok deletingObject ∧
    (quietEnv deletingObject).Accessor deletingObject = none ∧
    isIgnored (quietEnv deletingObject) deletingObject = false ∧
    deletingObject.deletionTimestampIsZero = false ∧
    ContainsFinalizer deletingObject finalizerName = true ∧
    Reconcile (quietEnv deletingObject) =
      { RequeueAfter := 30000000000, err := none,
        trace := [Call.Get, Call.Delete deletingObject, Call.StatusUpdate deletingObject] } :=
  ⟨rfl, rfl, by decide, by decide, by decide,
   ((reconcile_delete_pending_or_failed (quietEnv deletingObject) deletingObject rfl rfl
      (by decide) (by decide) (by decide)).1 rfl).1⟩

/-- C17: a failure of the status write is fatal to the pass. Every pass that
invokes Ensure ends with the write of the status subresource, and whenever
that write fails the pass returns the write error with zero requeue delay,
whatever Ensure returned and whatever delay the classification had chosen. -/
theorem reconcile_status_write_failure_is_fatal (env : Env)
    (h : (Reconcile env).trace.any Call.isEnsure = true) :
    ∃ obj tr, Reconcile env = ensureAndPersist env obj tr ∧
      (Reconcile env).trace =
        tr ++ [Call.Ensure obj, Call.StatusUpdate (ensuredObject env obj tr)] ∧
      ∀ err,
        (env.StatusUpdate (tr ++ [Call.Ensure obj]) (ensuredObject env obj tr)).2 = some err →
        (Reconcile env).err = some err ∧ (Reconcile env).RequeueAfter = 0 := by
  obtain ⟨obj, tr, hR, -, -⟩ := reconcile_reaches_ensure env h
  refine ⟨obj, tr, hR, ?_, ?_⟩
  · rw [hR, ensureAndPersist_trace]
  · intro err he
    rw [hR]
    have he2 : (env.StatusUpdate (tr ++ [Call.Ensure obj])
        { (env.Ensure tr obj).1 with
          Status := (updateStatus env.RequeueDuration (env.Ensure tr obj).1.Status env.Now
            (env.Ensure tr obj).2.2 (env.Ensure tr obj).2.1).1 }).2 = some err := he
    simp [ensureAndPersist, he2]

theorem reconcile_status_write_failure_is_fatal_witness :
    (Reconcile statusWriteFailEnv).trace.any Call.isEnsure = true ∧
    ∃ obj tr, Reconcile statusWriteFailEnv = ensureAndPersist statusWriteFailEnv obj tr ∧
      (Reconcile statusWriteFailEnv).trace =
        tr ++ [Call.Ensure obj, Call.StatusUpdate (ensuredObject statusWriteFailEnv obj tr)] ∧
      ∀ err,
        (statusWriteFailEnv.StatusUpdate (tr ++ [Call.Ensure obj])
          (ensuredObject statusWriteFailEnv obj tr)).2 = some err →
        (Reconcile statusWriteFailEnv).err = some err ∧
        (Reconcile statusWriteFailEnv).RequeueAfter = 0 :=
  ⟨by decide, reconcile_status_write_failure_is_fatal statusWriteFailEnv (by decide)⟩

theorem updateStatus_error_condition (d : Duration) (s : Status) (now : Time) (e : Error)
    (r : Bool) :
    ∃ c, (updateStatus d s now (some e) r).1.getCondition Reconciled = some c ∧
      c.Status = ConditionFalse ∧ c.Message = e.text := by
  have aux : ∀ reason : String,
      ∃ c, (updateCondition s (mkCondition Reconciled ConditionFalse reason e.text)
          now).getCondition Reconciled = some c ∧
        c.Status = ConditionFalse ∧ c.Message = e.text := by
    intro reason
    obtain ⟨c, hc, h1, -, h3⟩ :=
      reconciledIs_updateCondition s (mkCondition Reconciled ConditionFalse reason e.text)
        now rfl
    exact ⟨c, hc, h1, h3⟩
  obtain ⟨k, txt⟩ := e
  cases k
  · exact aux reasonResourceNotFound
  · exact aux reasonInvalidArguments
  · exact aux reasonPermissionsDenied
  · exact aux reasonOutOfStock
  · exact aux reasonQuotasExceeded
  · exact aux reasonResourceLocked
  · exact aux reasonTransientState
  · exact aux ""

/-- C18: in every pass that invokes Ensure, whatever Ensure returns, Ensure is
invoked once and the status subresource is written exactly once, right after
it; and when Ensure returned an error the object written carries a Reconciled
condition with status False and the error text as message. -/
theorem reconcile_status_written_once (env : Env)
    (h : (Reconcile env).trace.any Call.isEnsure = true) :
    ((Reconcile env).trace.filter Call.isStatusUpdate).length = 1 ∧
    ((Reconcile env).trace.filter Call.isEnsure).length = 1 ∧
    ∃ obj tr,
      (Reconcile env).trace =
        tr ++ [Call.Ensure obj, Call.StatusUpdate (ensuredObject env obj tr)] ∧
      ∀ e, (env.Ensure tr obj).2.2 = some e →
        ∃ c, (ensuredObject env obj tr).Status.getCondition Reconciled = some c ∧
          c.Status = ConditionFalse ∧ c.Message = e.text := by
  obtain ⟨obj, tr, hR, hP, -⟩ := reconcile_reaches_ensure env h
  have hT : (Reconcile env).trace =
      tr ++ [Call.Ensure obj, Call.StatusUpdate (ensuredObject env obj tr)] := by
    rw [hR, ensureAndPersist_trace]
  have hS : tr.filter Call.isStatusUpdate = [] := by
    rw [List.filter_eq_nil_iff]
    intro c hc
    simp [(isPrelude_facts c (hP c hc)).2.1]
  have hE : tr.filter Call.isEnsure = [] := by
    rw [List.filter_eq_nil_iff]
    intro c hc
    simp [(isPrelude_facts c (hP c hc)).1]
  refine ⟨?_, ?_, obj, tr, hT, ?_⟩
  · rw [hT, List.filter_append, hS]
    simp [List.filter, Call.isStatusUpdate]
  · rw [hT, List.filter_append, hE]
    simp [List.filter, Call.isEnsure]
  · intro e he
    show ∃ c, (updateStatus env.RequeueDuration (env.Ensure tr obj).1.Status env.Now
        (env.Ensure tr obj).2.2 (env.Ensure tr obj).2.1).1.getCondition Reconciled = some c ∧
      c.Status = ConditionFalse ∧ c.Message = e.text
    rw [he]
    exact updateStatus_error_condition _ _ _ e _

theorem reconcile_status_written_once_witness :
    (Reconcile ensureFailEnv).trace.any Call.isEnsure = true ∧
    ((Reconcile ensureFailEnv).trace.filter Call.isStatusUpdate).length = 1 ∧
    ((Reconcile ensureFailEnv).trace.filter Call.isEnsure).length = 1 :=
  ⟨by decide,
   (reconcile_status_written_once ensureFailEnv (by decide)).1,
   (reconcile_status_written_once ensureFailEnv (by decide)).2.1⟩

/-- C19: when the initial fetch reports not-found the pass returns zero delay
and no error; any other fetch error is returned with zero delay. In both
cases the pass invokes no driver operation and makes no store write. -/
theorem reconcile_fetch_error (env : Env) (err : Error) (hget : env.Get = .error err) :
    (env.IsNotFound err = true →
      Reconcile env = { RequeueAfter := 0, err := none, trace := [Call.Get] }) ∧
    (env.IsNotFound err = false →
      Reconcile env = { RequeueAfter := 0, err := some err, trace := [Call.Get] }) ∧
    (Reconcile env).RequeueAfter = 0 ∧
    (∀ c ∈ (Reconcile env).trace, c.isDriver = false ∧ c.isWrite = false) := by
  refine ⟨?_, ?_, ?_, ?_⟩
  · intro hn
    simp [Reconcile, hget, hn]
  · intro hn
    simp [Reconcile, hget, hn]
  · simp [Reconcile, hget]
  · simp [Reconcile, hget, Call.isDriver, Call.isWrite]

theorem reconcile_fetch_error_witness :
    notFoundEnv.Get = .error ⟨.Other, "not found"⟩ ∧
    notFoundEnv.IsNotFound ⟨.Other, "not found"⟩ = true ∧
    Reconcile notFoundEnv = { RequeueAfter := 0, err := none, trace := [Call.Get] } :=
  ⟨rfl, by decide,
   (reconcile_fetch_error notFoundEnv ⟨.Other, "not found"⟩ rfl).1 (by decide)⟩

/-! ## The drivers' Delete -/

/-- C20: the Delete of each of the three drivers treats backend not-found as
success. Whenever the backend delete call is made and fails, Delete returns
(true, nil) when the error is a ResourceNotFound error and (false, err) for
any other error. -/
theorem managers_delete_backend_error (m : ManagerEnv) (e : Error) :
    (∀ o : RDBInstance, o.Spec.InstanceID ≠ "" →
      m.DeleteInstance o.Spec.Region o.Spec.InstanceID = some e →
      (e.kind = ErrorKind.ResourceNotFoundError →
        InstanceManager.Delete m (.ofInstance o) = (true, none)) ∧
      (e.kind ≠ ErrorKind.ResourceNotFoundError →
        InstanceManager.Delete m (.ofInstance o) = (false, some e))) ∧
    (∀ (o : RDBDatabase) (instanceID region : String),
      DatabaseManager.getInstanceIDAndRegion m o = .ok (instanceID, region) →
      m.DeleteDatabase region instanceID
        (if o.Spec.OverrideName ≠ "" then o.Spec.OverrideName else o.Name) = some e →
      (e.kind = ErrorKind.ResourceNotFoundError →
        DatabaseManager.Delete m (.ofDatabase o) = (true, none)) ∧
      (e.kind ≠ ErrorKind.ResourceNotFoundError →
        DatabaseManager.Delete m (.ofDatabase o) = (false, some e))) ∧
    (∀ (o : RDBUser) (instanceID region : String),
      UserManager.getInstanceIDAndRegion m o = .ok (instanceID, region) →
      instanceID ≠ "" →
      m.DeleteUser region instanceID o.Spec.UserName = some e →
      (e.kind = ErrorKind.ResourceNotFoundError →
        UserManager.Delete m (.ofUser o) = (true, none)) ∧
      (e.kind ≠ ErrorKind.ResourceNotFoundError →
        UserManager.Delete m (.ofUser o) = (false, some e))) := by
  refine ⟨?_, ?_, ?_⟩
  · intro o hid hd
    constructor
    · intro hk
      simp [InstanceManager.Delete, convertInstance, hid, hd, hk]
    · intro hk
      simp [InstanceManager.Delete, convertInstance, hid, hd, hk]
  · intro o instanceID region hg hd
    constructor
    · intro hk
      simp only [DatabaseManager.Delete, convertDatabase, hg, hd, hk, if_true]
    · intro hk
      simp only [DatabaseManager.Delete, convertDatabase, hg, hd, hk, if_false]
  · intro o instanceID region hg hid hd
    constructor
    · intro hk
      simp only [UserManager.Delete, convertUser, hg, hid, hd, hk, if_true, if_false]
    · intro hk
      simp only [UserManager.Delete, convertUser, hg, hid, hd, hk, if_false]

theorem managers_delete_backend_error_witness :
    sampleInstance.Spec.InstanceID ≠ "" ∧
    (failingBackend ⟨.ResourceNotFoundError, "gone"⟩).DeleteInstance sampleInstance.Spec.Region
      sampleInstance.Spec.InstanceID = some ⟨.ResourceNotFoundError, "gone"⟩ ∧
    InstanceManager.Delete (failingBackend ⟨.ResourceNotFoundError, "gone"⟩)
      (.ofInstance sampleInstance) = (true, none) :=
  ⟨by decide, rfl,
   ((managers_delete_backend_error (failingBackend ⟨.ResourceNotFoundError, "gone"⟩)
      ⟨.ResourceNotFoundError, "gone"⟩).1 sampleInstance (by decide) rfl).1 rfl⟩

/-! ## Frame, IsReconciled and timestamp order of the condition store -/

theorem length_updateConditions (l : List Condition) (condition : Condition) (now : Time) :
    (updateConditions l condition now).length = l.length ∨
    (updateConditions l condition now).length = l.length + 1 := by
  induction l with
  | nil => right; rfl
  | cons c cs ih =>
    by_cases h : c.Type_ = condition.Type_
    · left; simp [updateConditions, h]
    · rcases ih with ih | ih
      · left; simp [updateConditions, h, ih]
      · right; simp [updateConditions, h, ih]

theorem get_updateConditions_other (l : List Condition) (condition : Condition) (now : Time)
    (i : Nat) (c : Condition) (hi : l[i]? = some c) (hc : c.Type_ ≠ condition.Type_) :
    (updateConditions l condition now)[i]? = some c := by
  induction l generalizing i with
  | nil => simp at hi
  | cons x xs ih =>
    by_cases h : x.Type_ = condition.Type_
    · cases i with
      | zero =>
        simp only [List.getElem?_cons_zero, Option.some.injEq] at hi
        subst hi
        exact absurd h hc
      | succ j =>
        simp only [List.getElem?_cons_succ] at hi
        simp [updateConditions, h, hi]
    · cases i with
      | zero =>
        simp only [List.getElem?_cons_zero] at hi
        simp [updateConditions, h, hi]
      | succ j =>
        simp only [List.getElem?_cons_succ] at hi
        simp only [updateConditions, h, if_false, List.getElem?_cons_succ]
        exact ih j hi

theorem get_updateConditions_other_inv (l : List Condition) (condition : Condition)
    (now : Time) (i : Nat) (c : Condition)
    (hi : (updateConditions l condition now)[i]? = some c)
    (hc : c.Type_ ≠ condition.Type_) :
    l[i]? = some c := by
  induction l generalizing i with
  | nil =>
    cases i with
    | zero =>
      simp only [updateConditions, List.getElem?_cons_zero, Option.some.injEq] at hi
      subst hi
      exact absurd rfl hc
    | succ j => simp [updateConditions] at hi
  | cons x xs ih =>
    by_cases h : x.Type_ = condition.Type_
    · cases i with
      | zero =>
        simp only [updateConditions, h, if_true, List.getElem?_cons_zero,
          Option.some.injEq] at hi
        subst hi
        exact absurd h hc
      | succ j =>
        simp only [updateConditions, h, if_true, List.getElem?_cons_succ] at hi
        simp [hi]
    · cases i with
      | zero =>
        simp only [updateConditions, h, if_false, List.getElem?_cons_zero] at hi
        simp [hi]
      | succ j =>
        simp only [updateConditions, h, if_false, List.getElem?_cons_succ] at hi
        simp only [List.getElem?_cons_succ]
        exact ih j hi

/-- C21: updateStatus writes the Reconciled condition only. For every store,
time, error and reconciled flag, every condition whose type is not Reconciled
is found after the call at the same position with all its fields unchanged,
the call adds no condition of another type, and the number of conditions stays
the same or grows by one. -/
theorem updateStatus_frame (d : Duration) (s : Status) (now : Time)
    (ensureErr : Option Error) (reconciled : Bool) :
    (∀ (i : Nat) (c : Condition), c.Type_ ≠ Reconciled →
      (s.Conditions[i]? = some c ↔
        (updateStatus d s now ensureErr reconciled).1.Conditions[i]? = some c)) ∧
    ((updateStatus d s now ensureErr reconciled).1.Conditions.length = s.Conditions.length ∨
     (updateStatus d s now ensureErr reconciled).1.Conditions.length =
       s.Conditions.length + 1) ∧
    (∀ t : ConditionType, t ≠ Reconciled →
      (updateStatus d s now ensureErr reconciled).1.getCondition t = s.getCondition t) := by
  obtain ⟨condition, hT, hE⟩ := updateStatus_eq_updateCondition d s now ensureErr reconciled
  rw [hE]
  refine ⟨?_, ?_, ?_⟩
  · intro i c hc
    have hc2 : c.Type_ ≠ condition.Type_ := by rw [hT]; exact hc
    exact ⟨fun h => get_updateConditions_other s.Conditions condition now i c h hc2,
      fun h => get_updateConditions_other_inv s.Conditions condition now i c h hc2⟩
  · exact length_updateConditions s.Conditions condition now
  · intro t ht
    have ht2 : t ≠ condition.Type_ := by rw [hT]; exact ht
    exact find_updateConditions_other s.Conditions condition now t ht2

theorem updateStatus_frame_witness :
    (mkCondition Ready ConditionTrue "reason" "message").Type_ ≠ Reconciled ∧
    (updateStatus 30000000000 readyAndReconciledStore 20 (some ⟨.Other, "boom"⟩)
        false).1.Conditions[0]? =
      some { Type_ := Ready, Status := ConditionTrue, LastProbeTime := 10,
             LastTransitionTime := 10, Reason := "reason", Message := "message" } :=
  ⟨by decide,
   ((updateStatus_frame 30000000000 readyAndReconciledStore 20 (some ⟨.Other, "boom"⟩)
      false).1 0
      { Type_ := Ready, Status := ConditionTrue, LastProbeTime := 10,
        LastTransitionTime := 10, Reason := "reason", Message := "message" }
      (by decide)).1 (by decide)⟩

theorem any_true_updateConditions (l : List Condition) (condition : Condition) (now : Time)
    (h : (l.filter (fun c => c.Type_ == condition.Type_)).length ≤ 1) :
    (updateConditions l condition now).any
        (fun c => c.Type_ == condition.Type_ && c.Status == ConditionTrue) = true ↔
      condition.Status = ConditionTrue := by
  induction l with
  | nil => simp [updateConditions, Condition.fresh]
  | cons x xs ih =>
    by_cases hx : x.Type_ = condition.Type_
    · have hnil : xs.filter (fun c => c.Type_ == condition.Type_) = [] := by
        simp only [List.filter_cons, hx, beq_self_eq_true, if_true, List.length_cons] at h
        exact List.length_eq_zero.1 (by omega)
      have hno : ∀ c ∈ xs, ¬ c.Type_ = condition.Type_ := by
        intro c hc
        have := (List.filter_eq_nil_iff.1 hnil) c hc
        simpa using this
      have hany : xs.any (fun c => c.Type_ == condition.Type_ && c.Status == ConditionTrue)
          = false := by
        rw [List.any_eq_false]
        intro c hc
        simp [hno c hc]
      simp [updateConditions, hx, Condition.refresh, hany]
    · have h2 : (xs.filter (fun c => c.Type_ == condition.Type_)).length ≤ 1 := by
        simpa [List.filter_cons, hx] using h
      simp [updateConditions, hx, ih h2]

theorem updateStatus_condition_true_iff (d : Duration) (s : Status) (now : Time)
    (ensureErr : Option Error) (reconciled : Bool) :
    ∃ condition : Condition, condition.Type_ = Reconciled ∧
      (updateStatus d s now ensureErr reconciled).1 = updateCondition s condition now ∧
      (condition.Status = ConditionTrue ↔ ensureErr = none ∧ reconciled = true) := by
  cases ensureErr with
  | none =>
    cases reconciled
    · exact ⟨_, rfl, rfl, by decide⟩
    · exact ⟨_, rfl, rfl, by decide⟩
  | some e =>
    obtain ⟨k, txt⟩ := e
    cases k <;> exact ⟨_, rfl, rfl, by simp [ConditionFalse, ConditionTrue]⟩

/-- C28: for every store with at most one Reconciled condition, after
updateStatus the helper IsReconciled is true exactly when the error is nil and
reconciled is true. Without the precondition this fails: in a store with two
Reconciled conditions only the first is rewritten, and IsReconciled stays true
after an error. -/
theorem isReconciled_after_updateStatus (d : Duration) (s : Status) (now : Time)
    (ensureErr : Option Error) (reconciled : Bool) (h : s.atMostOneReconciled) :
    ((updateStatus d s now ensureErr reconciled).1.IsReconciled = true ↔
      ensureErr = none ∧ reconciled = true) ∧
    ¬ twoReconciledStore.atMostOneReconciled ∧
    (updateStatus d twoReconciledStore now (some ⟨.Other, "boom"⟩) false).1.IsReconciled =
      true := by
  refine ⟨?_, by decide, ?_⟩
  · obtain ⟨condition, hT, hE, hS⟩ :=
      updateStatus_condition_true_iff d s now ensureErr reconciled
    rw [hE, ← hS]
    have h2 : (s.Conditions.filter (fun c => c.Type_ == condition.Type_)).length ≤ 1 := by
      rw [hT]; exact h
    have := any_true_updateConditions s.Conditions condition now h2
    rw [hT] at this
    exact this
  · rfl

theorem isReconciled_after_updateStatus_witness :
    reconcilingStore.atMostOneReconciled ∧
    ((updateStatus 30000000000 reconcilingStore 20 none true).1.IsReconciled = true ↔
      (none : Option Error) = none ∧ true = true) :=
  ⟨by decide,
   (isReconciled_after_updateStatus 30000000000 reconcilingStore 20 none true (by decide)).1⟩

theorem transitionBeforeProbe_updateConditions (l : List Condition) (condition : Condition)
    (now : Time)
    (hinv : ∀ c ∈ l, c.LastTransitionTime ≤ c.LastProbeTime)
    (hnow : ∀ c, l.find? (fun c => c.Type_ == condition.Type_) = some c →
      c.LastTransitionTime ≤ now) :
    ∀ c ∈ updateConditions l condition now, c.LastTransitionTime ≤ c.LastProbeTime := by
  induction l with
  | nil =>
    intro c hc
    simp only [updateConditions, List.mem_singleton] at hc
    subst hc
    exact le_refl _
  | cons x xs ih =>
    by_cases hx : x.Type_ = condition.Type_
    · intro c hc
      simp only [updateConditions, hx, if_true, List.mem_cons] at hc
      rcases hc with rfl | hc
      · have hxn : x.LastTransitionTime ≤ now := hnow x (by simp [List.find?_cons, hx])
        show (if x.Status ≠ condition.Status then now else x.LastTransitionTime) ≤ now
        split
        · exact le_refl _
        · exact hxn
      · exact hinv c (List.mem_cons_of_mem _ hc)
    · intro c hc
      simp only [updateConditions, hx, if_false, List.mem_cons] at hc
      rcases hc with rfl | hc
      · exact hinv c (List.mem_cons_self _ _)
      · refine ih (fun c hc => hinv c (List.mem_cons_of_mem _ hc)) ?_ c hc
        intro c hf
        exact hnow c (by simp [List.find?_cons, hx, hf])

theorem probe_le_updateConditions (l : List Condition) (condition : Condition) (now t : Time)
    (hl : ∀ c ∈ l, c.LastProbeTime ≤ t) (hnow : now ≤ t) :
    ∀ c ∈ updateConditions l condition now, c.LastProbeTime ≤ t := by
  induction l with
  | nil =>
    intro c hc
    simp only [updateConditions, List.mem_singleton] at hc
    subst hc
    exact hnow
  | cons x xs ih =>
    by_cases hx : x.Type_ = condition.Type_
    · intro c hc
      simp only [updateConditions, hx, if_true, List.mem_cons] at hc
      rcases hc with rfl | hc
      · exact hnow
      · exact hl c (List.mem_cons_of_mem _ hc)
    · intro c hc
      simp only [updateConditions, hx, if_false, List.mem_cons] at hc
      rcases hc with rfl | hc
      · exact hl c (List.mem_cons_self _ _)
      · exact ih (fun c hc => hl c (List.mem_cons_of_mem _ hc)) c hc

theorem storeOp_apply_eq_updateCondition (op : StoreOp) (s : Status) :
    ∃ condition : Condition, op.apply s = updateCondition s condition op.now := by
  cases op with
  | callCondition c now => exact ⟨c, rfl⟩
  | callStatus d now ensureErr reconciled =>
    obtain ⟨condition, -, e⟩ := updateStatus_eq_updateCondition d s now ensureErr reconciled
    exact ⟨condition, e⟩

theorem transitionBeforeProbe_runOps (ops : List StoreOp) (s : Status)
    (hinv : s.transitionBeforeProbe)
    (hbound : ∀ c ∈ s.Conditions, ∀ op ∈ ops, c.LastProbeTime ≤ op.now)
    (hops : nonDecreasing ops) :
    (runOps ops s).transitionBeforeProbe := by
  induction ops generalizing s with
  | nil => exact hinv
  | cons op ops ih =>
    obtain ⟨condition, hE⟩ := storeOp_apply_eq_updateCondition op s
    have hp : ∀ b ∈ ops, op.now ≤ b.now := by
      intro b hb
      have h1 := hops
      simp only [nonDecreasing, List.map_cons, List.pairwise_cons] at h1
      exact h1.1 _ (List.mem_map_of_mem _ hb)
    have hrest : nonDecreasing ops := by
      have h1 := hops
      simp only [nonDecreasing, List.map_cons, List.pairwise_cons] at h1
      exact h1.2
    show (runOps ops (op.apply s)).transitionBeforeProbe
    refine ih (op.apply s) ?_ ?_ hrest
    · rw [hE]
      refine transitionBeforeProbe_updateConditions s.Conditions condition op.now hinv ?_
      intro c hf
      have hm : c ∈ s.Conditions := List.mem_of_find?_eq_some hf
      exact le_trans (hinv c hm) (hbound c hm op (List.mem_cons_self _ _))
    · rw [hE]
      intro c hc b hb
      exact probe_le_updateConditions s.Conditions condition op.now b.now
        (fun c hc => hbound c hc b (List.mem_cons_of_mem _ hb)) (hp b hb) c hc

/-- C30: updateCondition preserves "every condition has lastTransitionTime <=
lastProbeTime" whenever now is not earlier than the lastTransitionTime of the
condition being updated; hence the predicate holds for every store reached
from the empty store by updateCondition and updateStatus calls whose times
never decrease. -/
theorem transitionBeforeProbe_invariant (s : Status) (condition : Condition) (now : Time)
    (ops : List StoreOp)
    (hinv : s.transitionBeforeProbe)
    (hnow : ∀ c, s.getCondition condition.Type_ = some c → c.LastTransitionTime ≤ now)
    (hops : nonDecreasing ops) :
    (updateCondition s condition now).transitionBeforeProbe ∧
    (runOps ops Status.empty).transitionBeforeProbe := by
  constructor
  · exact transitionBeforeProbe_updateConditions s.Conditions condition now hinv hnow
  · refine transitionBeforeProbe_runOps ops Status.empty ?_ ?_ hops
    · intro c hc
      cases hc
    · intro c hc
      cases hc

theorem transitionBeforeProbe_invariant_witness :
    reconcilingStore.transitionBeforeProbe ∧
    nonDecreasing [.callCondition readyTrue 1, .callStatus 30000000000 2 none true,
                   .callStatus 30000000000 2 none false] ∧
    (updateCondition reconcilingStore (mkCondition Reconciled ConditionFalse "r" "m")
      20).transitionBeforeProbe ∧
    (runOps [.callCondition readyTrue 1, .callStatus 30000000000 2 none true,
             .callStatus 30000000000 2 none false] Status.empty).transitionBeforeProbe :=
  ⟨by decide, by decide,
   transitionBeforeProbe_invariant reconcilingStore
     (mkCondition Reconciled ConditionFalse "r" "m") 20
     [.callCondition readyTrue 1, .callStatus 30000000000 2 none true,
      .callStatus 30000000000 2 none false]
     (by decide) (by decide) (by decide)⟩

/-! ## Labels and webhook paths -/

theorem compareTagsLabels_iff (tags : List String) (labels : Labels) :
    CompareTagsLabels tags labels = true ↔
      tags.length = (LabelsToTags labels).length ∧ ∀ t ∈ LabelsToTags labels, t ∈ tags := by
  unfold CompareTagsLabels LabelsToTags
  by_cases h : tags.length = labels.length
  · simp only [h, ne_eq, not_true_eq_false, if_false, List.all_eq_true, List.any_eq_true,
      beq_iff_eq, List.length_map, true_and, List.mem_map, forall_exists_index, and_imp]
    constructor
    · intro H t kv hkv e
      obtain ⟨tag, htag, e2⟩ := H kv hkv
      rw [← e, ← e2]
      exact htag
    · intro H kv hkv
      exact ⟨_, H _ kv hkv rfl, rfl⟩
  · simp [h]

theorem append_sep_inj (c : Char) (l1 l2 r1 r2 : List Char)
    (h1 : c ∉ l1) (h2 : c ∉ l2) (h : l1 ++ c :: r1 = l2 ++ c :: r2) :
    l1 = l2 ∧ r1 = r2 := by
  induction l1 generalizing l2 with
  | nil =>
    cases l2 with
    | nil =>
      simp only [List.nil_append, List.cons.injEq, true_and] at h
      exact ⟨rfl, h⟩
    | cons b l2 =>
      simp only [List.nil_append, List.cons_append, List.cons.injEq] at h
      exact absurd (h.1 ▸ List.mem_cons_self _ _) h2
  | cons a l1 ih =>
    cases l2 with
    | nil =>
      simp only [List.nil_append, List.cons_append, List.cons.injEq] at h
      exact absurd (h.1 ▸ List.mem_cons_self _ _) h1
    | cons b l2 =>
      simp only [List.cons_append, List.cons.injEq] at h
      obtain ⟨e1, e2⟩ := ih l2 (fun hm => h1 (List.mem_cons_of_mem _ hm))
        (fun hm => h2 (List.mem_cons_of_mem _ hm)) h.2
      exact ⟨by rw [h.1, e1], e2⟩

theorem labelsToTags_nodup (labels : Labels) (hk : labels.distinctKeys)
    (he : ∀ kv ∈ labels, '=' ∉ kv.1.data) : (LabelsToTags labels).Nodup := by
  unfold LabelsToTags
  refine List.Nodup.map_on ?_ (List.Nodup.of_map _ hk)
  intro x hx y hy hxy
  have hdata : x.1.data ++ '=' :: x.2.data = y.1.data ++ '=' :: y.2.data := by
    have := congrArg String.data hxy
    simpa [String.data_append] using this
  obtain ⟨e1, e2⟩ := append_sep_inj '=' _ _ _ _ (he x hx) (he y hy) hdata
  exact Prod.ext (String.ext e1) (String.ext e2)

/-- C22, as stated, fails: the label map has two distinct keys whose
"key=value" strings are both "a=b=c"; for the tag list ["a=b=c", "x"]
CompareTagsLabels returns true although the tag list is not a permutation of
LabelsToTags of the map. -/
theorem compareTagsLabels_colliding_labels :
    collidingLabels.distinctKeys ∧
    LabelsToTags collidingLabels = ["a=b=c", "a=b=c"] ∧
    CompareTagsLabels ["a=b=c", "x"] collidingLabels = true ∧
    ¬ List.Perm ["a=b=c", "x"] (LabelsToTags collidingLabels) := by
  decide

/-- C22, amended: CompareTagsLabels returns true whenever the tags are a
permutation of LabelsToTags of the labels, in particular on LabelsToTags of
the labels themselves; and for every label map whose "key=value" strings are
pairwise distinct, as they are when no key contains "=", it returns true
exactly when the tags are such a permutation. -/
theorem compareTagsLabels_perm (tags : List String) (labels : Labels)
    (hd : (LabelsToTags labels).Nodup) :
    (CompareTagsLabels tags labels = true ↔ List.Perm tags (LabelsToTags labels)) ∧
    (∀ (tags2 : List String) (labels2 : Labels),
      List.Perm tags2 (LabelsToTags labels2) → CompareTagsLabels tags2 labels2 = true) ∧
    (∀ labels2 : Labels, CompareTagsLabels (LabelsToTags labels2) labels2 = true) ∧
    (∀ labels2 : Labels, labels2.distinctKeys → (∀ kv ∈ labels2, '=' ∉ kv.1.data) →
      (LabelsToTags labels2).Nodup) := by
  have hperm : ∀ (tags2 : List String) (labels2 : Labels),
      List.Perm tags2 (LabelsToTags labels2) → CompareTagsLabels tags2 labels2 = true := by
    intro tags2 labels2 hp
    rw [compareTagsLabels_iff]
    exact ⟨hp.length_eq, fun t ht => hp.symm.subset ht⟩
  refine ⟨⟨?_, hperm tags labels⟩, hperm, fun labels2 => hperm _ labels2 (List.Perm.refl _),
    labelsToTags_nodup⟩
  intro h
  rw [compareTagsLabels_iff] at h
  have hsub : List.Subperm (LabelsToTags labels) tags :=
    List.subperm_of_subset hd (fun t ht => h.2 t ht)
  exact (hsub.perm_of_length_le (le_of_eq h.1)).symm

theorem compareTagsLabels_perm_witness :
    (LabelsToTags [("app", "db"), ("env", "prod")]).Nodup ∧
    (CompareTagsLabels ["env=prod", "app=db"] [("app", "db"), ("env", "prod")] = true ↔
      List.Perm ["env=prod", "app=db"] (LabelsToTags [("app", "db"), ("env", "prod")])) :=
  ⟨by decide,
   (compareTagsLabels_perm ["env=prod", "app=db"] [("app", "db"), ("env", "prod")]
      (by decide)).1⟩

/-- C23: for every group, version and kind GenerateValidatePath is
"/validate-", the group with every "." replaced by "-", "-", the version, "-"
and the lower-cased kind; foo/v2/bar gives "/validate-foo-v2-bar",
my-awesome-group/v99/MyNiceKind gives
"/validate-my-awesome-group-v99-mynicekind", and
rdb.scaleway.com/v1alpha1/RDBDatabase gives the path of the webhook marker. -/
theorem generateValidatePath_spec (ToLower : String → String) (gvk : GroupVersionKind) :
    (GenerateValidatePath ToLower gvk).data =
      "/validate-".data ++ gvk.Group.data.map (fun c => if c = '.' then '-' else c) ++
        ['-'] ++ gvk.Version.data ++ ['-'] ++ (ToLower gvk.Kind).data ∧
    '.' ∉ (ReplaceChar gvk.Group '.' '-').data ∧
    (ReplaceChar gvk.Group '.' '-').length = gvk.Group.length ∧
    GenerateValidatePath asciiToLower ⟨"foo", "v2", "bar"⟩ = "/validate-foo-v2-bar" ∧
    GenerateValidatePath asciiToLower ⟨"my-awesome-group", "v99", "MyNiceKind"⟩ =
      "/validate-my-awesome-group-v99-mynicekind" ∧
    GenerateValidatePath asciiToLower ⟨"rdb.scaleway.com", "v1alpha1", "RDBDatabase"⟩ =
      "/validate-rdb-scaleway-com-v1alpha1-rdbdatabase" := by
  refine ⟨?_, ?_, ?_, by decide, by decide, by decide⟩
  · simp only [GenerateValidatePath, ReplaceChar, String.data_append]
  · simp only [ReplaceChar, List.mem_map, not_exists, not_and]
    intro c _
    split
    · decide
    · assumption
  · simp only [ReplaceChar, String.length, List.length_map]

/-! ## Admission validation -/

/-- C24, the code at the failing input: the old and the new RDBDatabase differ
in spec.overrideName only ("a" and "b"), and DatabaseManager.ValidateUpdate
returns an empty error list and no error; for no pair of objects does its
error list hold an error on spec.overrideName. -/
theorem databaseValidateUpdate_overrideName_unchecked :
    sampleDatabase.Spec.OverrideName ≠ renamedDatabase.Spec.OverrideName ∧
    DatabaseManager.ValidateUpdate (quietRdb backendInstance [])
        (.ofDatabase sampleDatabase) (.ofDatabase renamedDatabase) =
      { errs := [], err := none, calls := [] } ∧
    (∀ (m : RdbEnv) (oldObj obj : RuntimeObject),
      ∀ e ∈ (DatabaseManager.ValidateUpdate m oldObj obj).errs,
        e.Field ≠ "spec.overrideName") := by
  refine ⟨by decide, by decide, ?_⟩
  intro m oldObj obj e he
  unfold DatabaseManager.ValidateUpdate at he
  split at he
  · simp at he
  · split at he
    · simp at he
    · simp only [ne_eq, not_true_eq_false, if_false, List.nil_append, List.mem_append] at he
      rcases he with ((he | he) | he) | he <;>
        · split at he
          · simp only [List.mem_singleton] at he
            subst he
            decide
          · simp at he

/-- C25: DatabaseManager.ValidateCreate, for an RDBDatabase. When a field of
both groups of instanceRef is set, and when neither Name nor ExternalID is
set, it returns a non-empty error list without calling the backend; when Name
is set and ExternalID and Region are empty it returns an empty error list and
no error without calling the backend. -/
theorem databaseValidateCreate_instanceRef (m : RdbEnv) (db : RDBDatabase) :
    (((db.Spec.InstanceRef.Name ≠ "" ∨ db.Spec.InstanceRef.Namespace ≠ "") ∧
      (db.Spec.InstanceRef.ExternalID ≠ "" ∨ db.Spec.InstanceRef.Region ≠ "")) →
      (DatabaseManager.ValidateCreate m (.ofDatabase db)).errs ≠ [] ∧
      (∀ e ∈ (DatabaseManager.ValidateCreate m (.ofDatabase db)).errs,
        e.Field = "spec.instanceRef") ∧
      (DatabaseManager.ValidateCreate m (.ofDatabase db)).err = none ∧
      (DatabaseManager.ValidateCreate m (.ofDatabase db)).calls = []) ∧
    ((db.Spec.InstanceRef.Name = "" ∧ db.Spec.InstanceRef.ExternalID = "") →
      DatabaseManager.ValidateCreate m (.ofDatabase db) =
        { errs := [fieldRequired "spec.instanceRef"
            "name/namespace or externalID/region must be specified"],
          err := none, calls := [] }) ∧
    ((db.Spec.InstanceRef.Name ≠ "" ∧ db.Spec.InstanceRef.ExternalID = "" ∧
      db.Spec.InstanceRef.Region = "") →
      DatabaseManager.ValidateCreate m (.ofDatabase db) =
        { errs := [], err := none, calls := [] }) := by
  refine ⟨?_, ?_, ?_⟩
  · rintro ⟨hn, hi⟩
    by_cases h0 : db.Spec.InstanceRef.Name = "" ∧ db.Spec.InstanceRef.ExternalID = ""
    · simp [DatabaseManager.ValidateCreate, convertDatabase, h0, fieldRequired]
    · simp [DatabaseManager.ValidateCreate, convertDatabase, h0, hn, hi, fieldForbidden]
  · intro h0
    simp [DatabaseManager.ValidateCreate, convertDatabase, h0]
  · rintro ⟨hn, he, hr⟩
    simp [DatabaseManager.ValidateCreate, convertDatabase, hn, he, hr]

theorem databaseValidateCreate_instanceRef_witness :
    (sampleDatabase.Spec.InstanceRef.Name ≠ "" ∧ sampleDatabase.Spec.InstanceRef.ExternalID = "" ∧
      sampleDatabase.Spec.InstanceRef.Region = "") ∧
    DatabaseManager.ValidateCreate (quietRdb backendInstance []) (.ofDatabase sampleDatabase) =
      { errs := [], err := none, calls := [] } :=
  ⟨by decide,
   (databaseValidateCreate_instanceRef (quietRdb backendInstance []) sampleDatabase).2.2
     (by decide)⟩

/-- C26, as stated, fails: the old RDBInstance has an empty spec.instanceID
and the new one has it set, nothing else differs, and
InstanceManager.ValidateUpdate returns an empty error list and no error. The
same holds for a pair that differs in spec.instanceFrom only. -/
theorem instanceValidateUpdate_accepts_first_instanceID :
    pendingInstance.Spec.InstanceID ≠ createdInstance.Spec.InstanceID ∧
    InstanceManager.ValidateUpdate (quietRdb backendInstance [])
        (.ofInstance pendingInstance) (.ofInstance createdInstance) =
      { errs := [], err := none, calls := [] } ∧
    createdInstance.Spec.InstanceFrom ≠ clonedFromInstance.Spec.InstanceFrom ∧
    InstanceManager.ValidateUpdate (quietRdb backendInstance [])
        (.ofInstance createdInstance) (.ofInstance clonedFromInstance) =
      { errs := [], err := none, calls := [] } := by
  decide

/-- C26, amended: when spec.instanceID or spec.region of the old RDBInstance
is non-empty and differs in the new one, InstanceManager.ValidateUpdate
returns an error list holding a Forbidden error on that field, unless
spec.nodeType changed as well and the backend listing of node types failed, in
which case it returns that error and an empty list. -/
theorem instanceValidateUpdate_immutable (m : RdbEnv) (old new : RDBInstance) :
    ((old.Spec.InstanceID ≠ "" ∧ old.Spec.InstanceID ≠ new.Spec.InstanceID) →
      (InstanceManager.ValidateUpdate m (.ofInstance old) (.ofInstance new)).err = none →
      fieldForbidden "spec.instanceID" "field is immutable" ∈
        (InstanceManager.ValidateUpdate m (.ofInstance old) (.ofInstance new)).errs) ∧
    ((old.Spec.Region ≠ "" ∧ old.Spec.Region ≠ new.Spec.Region) →
      (InstanceManager.ValidateUpdate m (.ofInstance old) (.ofInstance new)).err = none →
      fieldForbidden "spec.region" "field is immutable" ∈
        (InstanceManager.ValidateUpdate m (.ofInstance old) (.ofInstance new)).errs) ∧
    (∀ err, (InstanceManager.ValidateUpdate m (.ofInstance old) (.ofInstance new)).err =
        some err ↔
      old.Spec.NodeType ≠ new.Spec.NodeType ∧
      m.ListNodeTypes new.Spec.Region = .error err) ∧
    ((InstanceManager.ValidateUpdate m (.ofInstance old) (.ofInstance new)).err ≠ none →
      (InstanceManager.ValidateUpdate m (.ofInstance old) (.ofInstance new)).errs = []) := by
  have hcheck : ∀ err, (InstanceManager.checkNodeType m new.Spec.Region new.Spec.NodeType).err =
      some err ↔ m.ListNodeTypes new.Spec.Region = .error err := by
    intro err
    unfold InstanceManager.checkNodeType
    cases hl : m.ListNodeTypes new.Spec.Region with
    | error e => simp
    | ok nodeTypes =>
      simp only
      split <;> simp
  by_cases hnt : old.Spec.NodeType = new.Spec.NodeType
  · refine ⟨?_, ?_, ?_, ?_⟩
    · intro h _
      simp [InstanceManager.ValidateUpdate, convertInstance, hnt, h]
    · intro h _
      simp [InstanceManager.ValidateUpdate, convertInstance, hnt, h]
    · intro err
      simp [InstanceManager.ValidateUpdate, convertInstance, hnt]
    · simp [InstanceManager.ValidateUpdate, convertInstance, hnt]
  · cases hc : (InstanceManager.checkNodeType m new.Spec.Region new.Spec.NodeType).err with
    | some e =>
      have hl := (hcheck e).1 hc
      refine ⟨?_, ?_, ?_, ?_⟩
      · intro _ h
        simp [InstanceManager.ValidateUpdate, convertInstance, hnt, hc] at h
      · intro _ h
        simp [InstanceManager.ValidateUpdate, convertInstance, hnt, hc] at h
      · intro err
        simp [InstanceManager.ValidateUpdate, convertInstance, hnt, hc, hl]
      · simp [InstanceManager.ValidateUpdate, convertInstance, hnt, hc]
    | none =>
      have hl : ∀ err, m.ListNodeTypes new.Spec.Region ≠ .error err := by
        intro err h
        have := (hcheck err).2 h
        rw [hc] at this
        cases this
      refine ⟨?_, ?_, ?_, ?_⟩
      · intro h _
        simp [InstanceManager.ValidateUpdate, convertInstance, hnt, hc, h]
      · intro h _
        simp [InstanceManager.ValidateUpdate, convertInstance, hnt, hc, h]
      · intro err
        simp [InstanceManager.ValidateUpdate, convertInstance, hnt, hc, hl err]
      · simp [InstanceManager.ValidateUpdate, convertInstance, hnt, hc]

theorem instanceValidateUpdate_immutable_witness :
    (createdInstance.Spec.InstanceID ≠ "" ∧
      createdInstance.Spec.InstanceID ≠ movedInstance.Spec.InstanceID) ∧
    (InstanceManager.ValidateUpdate (quietRdb backendInstance [])
      (.ofInstance createdInstance) (.ofInstance movedInstance)).err = none ∧
    fieldForbidden "spec.instanceID" "field is immutable" ∈
      (InstanceManager.ValidateUpdate (quietRdb backendInstance [])
        (.ofInstance createdInstance) (.ofInstance movedInstance)).errs :=
  ⟨by decide, by decide,
   (instanceValidateUpdate_immutable (quietRdb backendInstance []) createdInstance
      movedInstance).1 (by decide) (by decide)⟩

/-! ## The drivers' Ensure -/

theorem updateInstance_cases (m : RdbEnv) (inst : RDBInstance) (rdbInstance : RdbInstance) :
    InstanceManager.updateInstance m inst rdbInstance = (false, none, []) ∨
    (∃ req, m.UpdateInstance req = none ∧
      InstanceManager.updateInstance m inst rdbInstance =
        (true, none, [ApiCall.UpdateInstance req])) ∨
    (∃ req err, m.UpdateInstance req = some err ∧
      InstanceManager.updateInstance m inst rdbInstance =
        (false, some err, [ApiCall.UpdateInstance req])) := by
  unfold InstanceManager.updateInstance
  cases hn : (InstanceManager.updateRequest inst rdbInstance).2 with
  | false => left; simp [hn]
  | true =>
    cases hu : m.UpdateInstance (InstanceManager.updateRequest inst rdbInstance).1 with
    | none => right; left; exact ⟨_, hu, by simp [hu, hn]⟩
    | some err => right; right; exact ⟨_, err, hu, by simp [hu, hn]⟩

theorem upgradeInstance_cases (m : RdbEnv) (inst : RDBInstance) (rdbInstance : RdbInstance) :
    InstanceManager.upgradeInstance m inst rdbInstance = (false, none, []) ∨
    (∃ req, m.UpgradeInstance req = none ∧
      InstanceManager.upgradeInstance m inst rdbInstance =
        (true, none, [ApiCall.UpgradeInstance req])) ∨
    (∃ req err, m.UpgradeInstance req = some err ∧
      InstanceManager.upgradeInstance m inst rdbInstance =
        (false, some err, [ApiCall.UpgradeInstance req])) := by
  unfold InstanceManager.upgradeInstance
  by_cases h1 : rdbInstance.IsHaCluster = inst.Spec.IsHaCluster
  · by_cases h2 : rdbInstance.NodeType = inst.Spec.NodeType
    · left; simp [h1, h2]
    · simp only [h1, ne_eq, not_true_eq_false, if_false, h2, not_false_eq_true, if_true]
      split
      · rename_i err hu
        right; right; exact ⟨_, err, hu, rfl⟩
      · rename_i hu
        right; left; exact ⟨_, hu, rfl⟩
  · simp only [ne_eq, h1, not_false_eq_true, if_true]
    split
    · rename_i err hu
      right; right; exact ⟨_, err, hu, rfl⟩
    · rename_i hu
      right; left; exact ⟨_, hu, rfl⟩

theorem updateACLs_calls (m : RdbEnv) (inst : RDBInstance) (acl : RDBACL) :
    (∀ c ∈ (InstanceManager.updateACLs m inst acl).2, c.isUpdateOrUpgrade = false) ∧
    ((InstanceManager.updateACLs m inst acl).2.filter ApiCall.isMutation).length ≤ 1 := by
  unfold InstanceManager.updateACLs
  cases hl : m.ListInstanceACLRules inst.Spec.Region inst.Spec.InstanceID with
  | error err => simp [ApiCall.isUpdateOrUpgrade, ApiCall.isMutation]
  | ok existingACLs =>
    cases hc : acl.AllowCluster with
    | false =>
      simp only [Bool.false_eq_true, if_false]
      split <;> simp [ApiCall.isUpdateOrUpgrade, ApiCall.isMutation, List.filter]
    | true =>
      simp only [if_true]
      cases hn : m.ListNodes with
      | error err => simp [ApiCall.isUpdateOrUpgrade, ApiCall.isMutation, List.filter]
      | ok ns =>
        simp only
        split <;> simp [ApiCall.isUpdateOrUpgrade, ApiCall.isMutation, List.filter]

theorem instanceEnsure_shape (m : RdbEnv) (inst : RDBInstance)
    (hid : inst.Spec.InstanceID ≠ "") :
    (InstanceManager.Ensure m (.ofInstance inst)).calls =
        [ApiCall.GetInstance inst.Spec.Region inst.Spec.InstanceID] ∨
    (∃ req, (InstanceManager.Ensure m (.ofInstance inst)).calls =
        [ApiCall.GetInstance inst.Spec.Region inst.Spec.InstanceID,
         ApiCall.UpdateInstance req] ∧
      (InstanceManager.Ensure m (.ofInstance inst)).ensured = false ∧
      (m.UpdateInstance req = none →
        (InstanceManager.Ensure m (.ofInstance inst)).err = none)) ∨
    (∃ req, (InstanceManager.Ensure m (.ofInstance inst)).calls =
        [ApiCall.GetInstance inst.Spec.Region inst.Spec.InstanceID,
         ApiCall.UpgradeInstance req] ∧
      (InstanceManager.Ensure m (.ofInstance inst)).ensured = false ∧
      (m.UpgradeInstance req = none →
        (InstanceManager.Ensure m (.ofInstance inst)).err = none)) ∨
    (∃ tail, (InstanceManager.Ensure m (.ofInstance inst)).calls =
        ApiCall.GetInstance inst.Spec.Region inst.Spec.InstanceID :: tail ∧
      (∀ c ∈ tail, c.isUpdateOrUpgrade = false) ∧
      (tail.filter ApiCall.isMutation).length ≤ 1) := by
  unfold InstanceManager.Ensure
  simp only [convertInstance, hid, if_false]
  cases hG : m.GetInstance inst.Spec.Region inst.Spec.InstanceID with
  | error err => left; rfl
  | ok rdbInstanceResp =>
    simp only
    rcases updateInstance_cases m inst rdbInstanceResp with hu | ⟨req, h1, hu⟩ | ⟨req, err, h1, hu⟩
    · simp only [hu, Bool.false_eq_true, if_false, List.append_nil]
      rcases upgradeInstance_cases m inst rdbInstanceResp with
        hg | ⟨req, h1, hg⟩ | ⟨req, err, h1, hg⟩
      · simp only [hg, Bool.false_eq_true, if_false, List.append_nil]
        right; right; right
        cases hacl : inst.Spec.ACL with
        | none =>
          refine ⟨[], ?_, by simp, by simp⟩
          simp
        | some acl =>
          simp only
          obtain ⟨ha1, ha2⟩ := updateACLs_calls m inst acl
          refine ⟨(InstanceManager.updateACLs m inst acl).2, ?_, ha1, ha2⟩
          split <;> simp
      · right; right; left
        refine ⟨req, ?_, ?_, ?_⟩ <;> simp [hg]
      · right; right; left
        refine ⟨req, ?_, ?_, ?_⟩
        · simp [hg]
        · simp [hg]
        · intro h2
          rw [h1] at h2
          cases h2
    · right; left
      refine ⟨req, ?_, ?_, ?_⟩ <;> simp [hu]
    · right; left
      refine ⟨req, ?_, ?_, ?_⟩
      · simp [hu]
      · simp [hu]
      · intro h2
        rw [h1] at h2
        cases h2

/-- C27: one corrective action per pass. In one InstanceManager.Ensure call
for an instance whose InstanceID is set, at most one of the backend mutations
UpdateInstance, UpgradeInstance and SetInstanceACLRules is issued; an
UpdateInstance or UpgradeInstance call is the last call of the pass, and
whenever it succeeds Ensure returns (false, nil). -/
theorem instanceEnsure_one_mutation (m : RdbEnv) (inst : RDBInstance)
    (hid : inst.Spec.InstanceID ≠ "") :
    ((InstanceManager.Ensure m (.ofInstance inst)).calls.filter ApiCall.isMutation).length ≤ 1 ∧
    (∀ req, ApiCall.UpdateInstance req ∈ (InstanceManager.Ensure m (.ofInstance inst)).calls →
      m.UpdateInstance req = none →
      (InstanceManager.Ensure m (.ofInstance inst)).ensured = false ∧
      (InstanceManager.Ensure m (.ofInstance inst)).err = none) ∧
    (∀ req, ApiCall.UpgradeInstance req ∈ (InstanceManager.Ensure m (.ofInstance inst)).calls →
      m.UpgradeInstance req = none →
      (InstanceManager.Ensure m (.ofInstance inst)).ensured = false ∧
      (InstanceManager.Ensure m (.ofInstance inst)).err = none) ∧
    (∀ c ∈ (InstanceManager.Ensure m (.ofInstance inst)).calls, c.isUpdateOrUpgrade = true →
      (InstanceManager.Ensure m (.ofInstance inst)).calls.getLast? = some c) := by
  rcases instanceEnsure_shape m inst hid with
    h | ⟨req, h, he, hn⟩ | ⟨req, h, he, hn⟩ | ⟨tail, h, ht1, ht2⟩
  · rw [h]
    refine ⟨by simp [ApiCall.isMutation, List.filter], ?_, ?_, ?_⟩
    · intro req hm; simp at hm
    · intro req hm; simp at hm
    · intro c hc hu
      simp only [List.mem_singleton] at hc
      subst hc
      cases hu
  · rw [h]
    refine ⟨by simp [ApiCall.isMutation, List.filter], ?_, ?_, ?_⟩
    · intro req2 hm hok
      simp only [List.mem_cons, List.mem_singleton, List.not_mem_nil, or_false] at hm
      rcases hm with hm | hm
      · cases hm
      · cases hm
        exact ⟨he, hn hok⟩
    · intro req2 hm
      simp at hm
    · intro c hc hu
      simp only [List.mem_cons, List.mem_singleton, List.not_mem_nil, or_false] at hc
      rcases hc with rfl | rfl
      · cases hu
      · rfl
  · rw [h]
    refine ⟨by simp [ApiCall.isMutation, List.filter], ?_, ?_, ?_⟩
    · intro req2 hm
      simp at hm
    · intro req2 hm hok
      simp only [List.mem_cons, List.mem_singleton, List.not_mem_nil, or_false] at hm
      rcases hm with hm | hm
      · cases hm
      · cases hm
        exact ⟨he, hn hok⟩
    · intro c hc hu
      simp only [List.mem_cons, List.mem_singleton, List.not_mem_nil, or_false] at hc
      rcases hc with rfl | rfl
      · cases hu
      · rfl
  · rw [h]
    have hno : ∀ c ∈ ApiCall.GetInstance inst.Spec.Region inst.Spec.InstanceID :: tail,
        c.isUpdateOrUpgrade = false := by
      intro c hc
      rcases List.mem_cons.1 hc with rfl | hc
      · rfl
      · exact ht1 c hc
    refine ⟨?_, ?_, ?_, ?_⟩
    · simpa [List.filter, ApiCall.isMutation] using ht2
    · intro req hm
      have := hno _ hm
      cases this
    · intro req hm
      have := hno _ hm
      cases this
    · intro c hc hu
      rw [hno c hc] at hu
      cases hu

theorem instanceEnsure_one_mutation_witness :
    driftedInstance.Spec.InstanceID ≠ "" ∧
    ((InstanceManager.Ensure (quietRdb backendInstance [])
      (.ofInstance driftedInstance)).calls.filter ApiCall.isMutation).length ≤ 1 ∧
    (InstanceManager.Ensure (quietRdb backendInstance []) (.ofInstance driftedInstance)).calls =
      [ApiCall.GetInstance "fr-par" "11111111-1111-1111-1111-111111111111",
       ApiCall.UpdateInstance
         { Region := "fr-par", InstanceID := "11111111-1111-1111-1111-111111111111",
           Tags := some ["app=db"], IsBackupScheduleDisabled := none,
           BackupScheduleFrequency := none, BackupScheduleRetention := none }] :=
  ⟨by decide,
   (instanceEnsure_one_mutation (quietRdb backendInstance []) driftedInstance (by decide)).1,
   by decide⟩

theorem userEnsure_ensured (m : RdbEnv) (obj : RuntimeObject) :
    (UserManager.Ensure m obj).ensured = false := by
  simp only [UserManager.Ensure]
  repeat' split
  all_goals rfl

theorem updateStatus_not_reconciled (d : Duration) (s : Status) (now : Time)
    (ensureErr : Option Error) :
    ∃ c, (updateStatus d s now ensureErr false).1.getCondition Reconciled = some c ∧
      c.Status = ConditionFalse := by
  cases ensureErr with
  | none =>
    obtain ⟨c, hc, h1, -, -⟩ :=
      reconciledIs_updateCondition s
        (mkCondition Reconciled ConditionFalse reasonReconciling messageStillReconciling)
        now rfl
    exact ⟨c, hc, h1⟩
  | some e =>
    obtain ⟨c, hc, h1, -⟩ := updateStatus_error_condition d s now e false
    exact ⟨c, hc, h1⟩

/-- C29: UserManager.Ensure never reports full reconciliation. For every
object and every behaviour of the backend and the store the boolean it returns
is false; so after updateStatus on its result the Reconciled condition has
status False, never True, and after an error-free pass the requeue delay is
the base interval. -/
theorem userEnsure_never_reconciled (m : RdbEnv) (obj : RuntimeObject) (d : Duration)
    (s : Status) (now : Time) :
    (UserManager.Ensure m obj).ensured = false ∧
    (∃ c, (updateStatus d s now (UserManager.Ensure m obj).err
        (UserManager.Ensure m obj).ensured).1.getCondition Reconciled = some c ∧
      c.Status = ConditionFalse ∧ c.Status ≠ ConditionTrue) ∧
    ((UserManager.Ensure m obj).err = none →
      (updateStatus d s now (UserManager.Ensure m obj).err
        (UserManager.Ensure m obj).ensured).2 = (d, none)) := by
  refine ⟨userEnsure_ensured m obj, ?_, ?_⟩
  · rw [userEnsure_ensured m obj]
    obtain ⟨c, hc, h1⟩ := updateStatus_not_reconciled d s now (UserManager.Ensure m obj).err
    refine ⟨c, hc, h1, ?_⟩
    rw [h1]
    decide
  · intro he
    rw [userEnsure_ensured m obj, he]
    rfl

theorem userEnsure_never_reconciled_witness :
    (UserManager.Ensure (quietRdb backendInstance []) (.ofUser sampleUser)).err = none ∧
    (UserManager.Ensure (quietRdb backendInstance []) (.ofUser sampleUser)).ensured = false ∧
    (updateStatus 30000000000 Status.empty 20
      (UserManager.Ensure (quietRdb backendInstance []) (.ofUser sampleUser)).err
      (UserManager.Ensure (quietRdb backendInstance []) (.ofUser sampleUser)).ensured).2 =
        (30000000000, none) :=
  ⟨by decide,
   (userEnsure_never_reconciled (quietRdb backendInstance []) (.ofUser sampleUser)
      30000000000 Status.empty 20).1,
   (userEnsure_never_reconciled (quietRdb backendInstance []) (.ofUser sampleUser)
      30000000000 Status.empty 20).2.2 (by decide)⟩

end Scaleway
